import Mathlib

/-!
Verification of the event-pool-services real-time ingestion pipeline.

This file shallowly embeds the crawler subsystem of the repository:
the crypto exchange adapters (Binance / Bybit / OKX, files
`crawler/crypto/binance.go`, `crawler/crypto/okx.go` and the Bybit
adapter), the sports adapter (`crawler/sports/nba.go`), and the thin
data-access layer they run against (`database/event.go`,
`database/event_period.go`, the team-group and ecosystem stores, and
the `DB.Transaction` wrapper).

The relational store is modelled as in-memory lists of rows, one list
per table, with a counter supplying the database-generated guids
(the schema default `replace(uuid_generate_v4()::text, '-', '')`; only
freshness matters to the protocol).  GORM's `First`-by-lookup is a
first-match scan, `Create` appends a row with a freshly generated guid
back-filled into the record, `Updates` rewrites the matching rows, and
`Transaction fn` commits `fn`'s post-state on success and rolls back to
the pre-state on error — the contract the (out-of-scope) SQL engine
provides.  Wall-clock reads (`time.Now()`) are threaded in explicitly
as a `Clock` value.
-/

namespace EventPool

/-- A flat JSON value, as stored in the `info`/`extra` JSONB columns.
The nested `time_zones` object written by the NBA adapter is flattened
into dotted keys; no claim inspects these payloads. -/
inductive JVal where
  | str (s : String)
  | num (n : Int)
  | bool (b : Bool)
deriving Repr, DecidableEq

/-- A JSONB payload (`database.JSONB`, a string-keyed map). -/
abbrev JSONB := List (String × JVal)

/-- `database.Event` (table `event`).  Field set from `database/event.go`;
the `price` column (VARCHAR, "价格（用于加密货币等非体育事件）") is taken
from the migration `migrations/20251117001.sql` and is the field every
crypto adapter assigns `Price:` to. -/
structure Event where
  guid : String
  categoryGuid : String
  ecosystemGuid : String
  eventPeriodGuid : String
  mainTeamGroupGuid : String
  clusterTeamGroupGuid : String
  externalId : String
  mainScore : String
  clusterScore : String
  price : String
  logo : String
  eventType : Int
  experimentResult : String
  info : JSONB
  isOnline : Bool
  isLive : Int
  isSports : Bool
  stage : String
  updatedAt : Int
deriving Repr, DecidableEq

/-- `database.EventLanguage` (table `event_language`). -/
structure EventLanguage where
  guid : String
  eventGuid : String
  languageGuid : String
  title : String
  rules : String
deriving Repr, DecidableEq

/-- `database.EventPeriod` (table `event_period`). -/
structure EventPeriod where
  guid : String
  code : String
  isActive : Bool
  scheduled : String
  remark : String
  extra : JSONB
deriving Repr, DecidableEq

/-- `database.TeamGroup` (table `team_group`). -/
structure TeamGroup where
  guid : String
  ecosystemGuid : String
  externalId : String
  logo : String
deriving Repr, DecidableEq

/-- `database.TeamGroupLanguage` (table `team_group_language`). -/
structure TeamGroupLanguage where
  guid : String
  teamGroupGuid : String
  languageGuid : String
  /-- the `Alias` column (`alias` is a reserved word in Lean). -/
  teamAlias : String
  name : String
deriving Repr, DecidableEq

/-- `database.Ecosystem` (table `ecosystem`), reduced to the columns the
crawler reads (`GetEcosystemByCode`). -/
structure Ecosystem where
  guid : String
  code : String
deriving Repr, DecidableEq

/-- The relational store: one list per table touched by the pipeline,
plus the generator for database-assigned guids. -/
structure DBState where
  events : List Event
  eventLanguages : List EventLanguage
  eventPeriods : List EventPeriod
  teamGroups : List TeamGroup
  teamGroupLanguages : List TeamGroupLanguage
  ecosystems : List Ecosystem
  nextGuid : Nat
deriving Repr, DecidableEq

/-- The empty store. -/
def DBState.empty : DBState :=
  { events := [], eventLanguages := [], eventPeriods := [], teamGroups := [],
    teamGroupLanguages := [], ecosystems := [], nextGuid := 0 }

/-- The guid the database generates for the `n`-th created row
(schema default `replace(uuid_generate_v4()::text, '-', '')`; modelled
as a counter since only freshness is relied upon). -/
def freshGuid (n : Nat) : String := "guid-" ++ toString n

/-- Explicit wall-clock values standing for the `time.Now()` reads. -/
structure Clock where
  /-- `now.Format("2006-01-02")`. -/
  dateCode : String
  /-- `now.Format("2006-01-02 15:04:05")`. -/
  nowStr : String
  /-- `time.Now().Unix()`. -/
  unix : Int
deriving Repr, DecidableEq

/-- `eventDB.GetEventByExternalID`: `WHERE external_id = ?` + `First`;
`(nil, nil)` on not-found. -/
def getEventByExternalID (st : DBState) (externalID : String) : Option Event :=
  st.events.find? (fun e => e.externalId == externalID)

/-- `eventDB.CreateEvent`: insert, with the primary key filled in by the
database default; GORM back-fills the generated guid (returned here —
the crawlers ignore it for events and re-read by `external_id`). -/
def createEvent (st : DBState) (e : Event) : String × DBState :=
  let g := freshGuid st.nextGuid
  (g, { st with events := st.events ++ [{ e with guid := g }],
                nextGuid := st.nextGuid + 1 })

/-- `eventDB.UpdateEventFields`: applies the update map to the rows with
the given guid and stamps `updated_at = time.Now()`. -/
def updateEventFields (now : Int) (eventGUID : String) (upd : Event → Event)
    (st : DBState) : DBState :=
  { st with events := st.events.map (fun e =>
      if e.guid == eventGUID then { upd e with updatedAt := now } else e) }

/-- `eventDB.GetEventLanguage`: lookup by `(event_guid, language_guid)`. -/
def getEventLanguage (st : DBState) (eventGUID languageGUID : String) :
    Option EventLanguage :=
  st.eventLanguages.find? (fun l =>
    l.eventGuid == eventGUID && l.languageGuid == languageGUID)

/-- `eventDB.CreateEventLanguage`. -/
def createEventLanguage (st : DBState) (l : EventLanguage) : DBState :=
  let g := freshGuid st.nextGuid
  { st with eventLanguages := st.eventLanguages ++ [{ l with guid := g }],
            nextGuid := st.nextGuid + 1 }

/-- `eventDB.UpdateEventLanguage`: `Updates` on the row with the given
guid (a struct update: the net effect at the crawler call sites is
replacing the row with the mutated record). -/
def updateEventLanguageRow (st : DBState) (l : EventLanguage) : DBState :=
  { st with eventLanguages := st.eventLanguages.map (fun r =>
      if r.guid == l.guid then l else r) }

/-- `eventPeriodDB.GetEventPeriodByCode`: `WHERE code = ?` + `First`. -/
def getEventPeriodByCode (st : DBState) (code : String) : Option EventPeriod :=
  st.eventPeriods.find? (fun p => p.code == code)

/-- `eventPeriodDB.CreateEventPeriod`. -/
def createEventPeriod (st : DBState) (p : EventPeriod) : String × DBState :=
  let g := freshGuid st.nextGuid
  (g, { st with eventPeriods := st.eventPeriods ++ [{ p with guid := g }],
                nextGuid := st.nextGuid + 1 })

/-- `teamGroupDB.GetTeamGroupByExternalId` (keyed by `(externalId, ecosystemGuid)`). -/
def getTeamGroupByExternalId (st : DBState) (externalId ecosystemGUID : String) :
    Option TeamGroup :=
  st.teamGroups.find? (fun t =>
    t.externalId == externalId && t.ecosystemGuid == ecosystemGUID)

/-- `teamGroupDB.GetTeamGroupByGUID`. -/
def getTeamGroupByGUID (st : DBState) (guid : String) : Option TeamGroup :=
  st.teamGroups.find? (fun t => t.guid == guid)

/-- `teamGroupDB.CreateTeamGroup`; GORM back-fills the generated guid
into the record, which `ensureTeam` then reads back. -/
def createTeamGroup (st : DBState) (t : TeamGroup) : String × DBState :=
  let g := freshGuid st.nextGuid
  (g, { st with teamGroups := st.teamGroups ++ [{ t with guid := g }],
                nextGuid := st.nextGuid + 1 })

/-- `teamGroupDB.CreateTeamGroupLanguage`. -/
def createTeamGroupLanguage (st : DBState) (l : TeamGroupLanguage) : DBState :=
  let g := freshGuid st.nextGuid
  { st with teamGroupLanguages := st.teamGroupLanguages ++ [{ l with guid := g }],
            nextGuid := st.nextGuid + 1 }

/-- `ecosystemDB.GetEcosystemByCode`. -/
def getEcosystemByCode (st : DBState) (code : String) : Option Ecosystem :=
  st.ecosystems.find? (fun e => e.code == code)

/-- `DB.Transaction` (`database/db.go`): run the body against the store;
commit its post-state when it returns nil, report the error and roll
every step back when it fails — the contract of `gorm.DB.Transaction`
over the out-of-scope SQL engine. -/
def Transaction (fn : DBState → Except String DBState) (st : DBState) :
    Except String Unit × DBState :=
  match fn st with
  | .ok st' => (.ok (), st')
  | .error e => (.error e, st)

/-- Number of `event` rows carrying a given `external_id` (the
"externalId lookup count" of the spec's idempotency property). -/
def countByExternalID (st : DBState) (externalID : String) : Nat :=
  st.events.countP (fun e => e.externalId == externalID)

/-- Number of `event_period` rows carrying a given `code`. -/
def countPeriodsByCode (st : DBState) (code : String) : Nat :=
  st.eventPeriods.countP (fun p => p.code == code)

/-! ## The crypto exchange adapters

`BinanceCrawler.processPrice`, `BybitCrawler.processPrice` and
`OKXCrawler.processPrice` repeat the same upsert body; they differ only
in the `externalID` prefix, the period-code format string, and the
exchange name interpolated into the `Rules` text.  The body is embedded
once, parameterised by those three strings plus the configured guids,
and each adapter is an instantiation below. -/

/-- The normalized tick (`BinanceTickerPrice` / `BybitTickerPrice` /
`OKXTickerPrice`: `{symbol, price}`). -/
structure PriceTick where
  symbol : String
  price : String
deriving Repr, DecidableEq

/-- Per-adapter constants: the configured guids plus the three string
literals that distinguish the copies of the upsert body. -/
structure CryptoAdapter where
  category : String
  ecosystem : String
  defaultLanguage : String
  /-- `fmt.Sprintf("BINANCE_%s", ...)` etc.: the externalID namespace. -/
  extPre : String
  /-- the period-code format: `"CRYPTO_BINANCE__%s"` / `"CRYPTO_BYBIY_%s"` / `"CRYPTO_%s"`. -/
  periodPre : String
  /-- the exchange name in the `Rules` text. -/
  exchangeName : String
deriving Repr, DecidableEq

/-- `BinanceCrawler` with a given configuration (`NewBinanceCrawler`). -/
def binanceCrawler (category ecosystem defaultLanguage : String) : CryptoAdapter :=
  { category, ecosystem, defaultLanguage,
    extPre := "BINANCE_", periodPre := "CRYPTO_BINANCE__", exchangeName := "Binance" }

/-- `BybitCrawler` (`NewBybitCrawler`); the period-code prefix carries
the source's `"CRYPTO_BYBIY_%s"` spelling. -/
def bybitCrawler (category ecosystem defaultLanguage : String) : CryptoAdapter :=
  { category, ecosystem, defaultLanguage,
    extPre := "BYBIT_", periodPre := "CRYPTO_BYBIY_", exchangeName := "Bybit" }

/-- `OKXCrawler` (`NewOKXCrawler`). -/
def okxCrawler (category ecosystem defaultLanguage : String) : CryptoAdapter :=
  { category, ecosystem, defaultLanguage,
    extPre := "OKX_", periodPre := "CRYPTO_", exchangeName := "OKX" }

/-- `ensureEventPeriod` (repeated in every adapter): get-or-create the
`event_period` row by its natural `code`, re-reading by code after a
create to obtain the database-generated guid. -/
def ensureEventPeriod (periodCode : String) (newPeriod : EventPeriod)
    (st : DBState) : Except String (String × DBState) :=
  match getEventPeriodByCode st periodCode with
  | some existingPeriod => .ok (existingPeriod.guid, st)
  | none =>
    let (_, st1) := createEventPeriod st newPeriod
    match getEventPeriodByCode st1 periodCode with
    | some createdPeriod => .ok (createdPeriod.guid, st1)
    | none => .error "failed to retrieve created event period"

/-- The crawlers' `updateEventLanguage` helper: update the title of the
`(eventGuid, defaultLanguage)` row if one exists, else insert it. -/
def upsertEventLanguage (defaultLanguage eventGUID title : String)
    (st : DBState) : DBState :=
  match getEventLanguage st eventGUID defaultLanguage with
  | none =>
    createEventLanguage st
      { guid := "", eventGuid := eventGUID, languageGuid := defaultLanguage,
        title := title, rules := "" }
  | some eventLang => updateEventLanguageRow st { eventLang with title := title }

/-- The `info` JSONB payload the crypto upsert assembles. -/
def cryptoEventInfo (externalID : String) (clock : Clock) (t : PriceTick) : JSONB :=
  [("external_id", .str externalID), ("symbol", .str t.symbol),
   ("price", .str t.price), ("timestamp", .num clock.unix)]

/-- The `&database.Event{...}` literal of the crypto create path
(scores default "0", `IsOnline: true`, `IsLive: 0`, `Stage: "LIVE"`;
the guid is left for the database to generate). -/
def cryptoNewEvent (c : CryptoAdapter) (clock : Clock) (t : PriceTick)
    (eventPeriodGUID : String) : Event :=
  { guid := "", categoryGuid := c.category, ecosystemGuid := c.ecosystem,
    eventPeriodGuid := eventPeriodGUID, mainTeamGroupGuid := "0",
    clusterTeamGroupGuid := "0", externalId := c.extPre ++ t.symbol,
    mainScore := "0", clusterScore := "0", price := t.price, logo := "",
    eventType := 0, experimentResult := "",
    info := cryptoEventInfo (c.extPre ++ t.symbol) clock t,
    isOnline := true, isLive := 0, isSports := false, stage := "LIVE",
    updatedAt := clock.unix }

/-- The `&database.EventLanguage{...}` literal of the crypto create path. -/
def cryptoNewEventLanguage (c : CryptoAdapter) (t : PriceTick)
    (eventGUID : String) : EventLanguage :=
  { guid := "", eventGuid := eventGUID, languageGuid := c.defaultLanguage,
    title := t.symbol ++ " Price",
    rules := "Real-time price tracking for " ++ t.symbol ++ " on "
               ++ c.exchangeName }

/-- The transaction body of `processPrice` (identical, up to the
`CryptoAdapter` strings, in `binance.go`, the Bybit adapter and
`okx.go`): look the event up by `externalID`, resolve the daily
period bucket, then update the found row in place or create the row
plus its `EventLanguage`. -/
def cryptoProcessPriceBody (c : CryptoAdapter) (clock : Clock)
    (priceData : PriceTick) (st : DBState) : Except String DBState :=
  let externalID := c.extPre ++ priceData.symbol
  let existingEvent := getEventByExternalID st externalID
  let price := priceData.price
  let mainScore := "0"
  let clusterScore := "0"
  let dateCode := clock.dateCode
  let periodCode := c.periodPre ++ dateCode
  match ensureEventPeriod periodCode
      { guid := "", code := periodCode, isActive := true,
        scheduled := clock.nowStr,
        remark := "Crypto price date: " ++ dateCode, extra := [] } st with
  | .error e => .error ("failed to ensure event period: " ++ e)
  | .ok (eventPeriodGUID, st1) =>
    let eventInfo : JSONB := cryptoEventInfo externalID clock priceData
    let eventTitle := priceData.symbol ++ " Price"
    match existingEvent with
    | some ev =>
      -- found: targeted field update (the `updates` map), then the
      -- language upsert, whose error the source only logs.
      let st2 := updateEventFields clock.unix ev.guid (fun e =>
        { e with price := price, mainScore := mainScore,
                 clusterScore := clusterScore, isLive := 0, stage := "LIVE",
                 info := eventInfo, eventPeriodGuid := eventPeriodGUID }) st1
      .ok (upsertEventLanguage c.defaultLanguage ev.guid eventTitle st2)
    | none =>
      let (_, st2) := createEvent st1 (cryptoNewEvent c clock priceData eventPeriodGUID)
      match getEventByExternalID st2 externalID with
      | none => .error ("created event not found by external_id: " ++ externalID)
      | some createdEvent =>
        .ok (createEventLanguage st2
          (cryptoNewEventLanguage c priceData createdEvent.guid))

/-- `processPrice`: the upsert body wrapped in one database transaction. -/
def processPrice (c : CryptoAdapter) (clock : Clock) (priceData : PriceTick)
    (st : DBState) : Except String Unit × DBState :=
  Transaction (cryptoProcessPriceBody c clock priceData) st

/-- A sequence of ticks fed through `processPrice` (the read loop calls
the upsert inline per decoded frame); errors are logged and the stream
continues. -/
def runTicks (c : CryptoAdapter) (clock : Clock) (ticks : List PriceTick)
    (st : DBState) : DBState :=
  ticks.foldl (fun s t => (processPrice c clock t s).2) st

/-! ## The sports (NBA / Sportradar) adapter, `crawler/sports/nba.go` -/

/-- `sports.NBATeam` (the fields `ensureTeam` reads). -/
structure NBATeam where
  id : String
  name : String
  /-- the `Alias` field. -/
  teamAlias : String
  srId : String
  reference : String
deriving Repr, DecidableEq

/-- `sports.NBASeason`. -/
structure NBASeason where
  id : String
  year : Int
  seasonType : String
deriving Repr, DecidableEq

/-- `sports.NBATimeZones`. -/
structure NBATimeZones where
  venue : String
  home : String
  away : String
deriving Repr, DecidableEq

/-- `sports.NBAGame`: one schedule entry from the provider. -/
structure NBAGame where
  id : String
  /-- provider status: scheduled / inprogress / closed. -/
  status : String
  scheduled : String
  homePoints : Option Int
  awayPoints : Option Int
  coverage : String
  trackOnCourt : Bool
  srId : String
  reference : String
  timeZones : NBATimeZones
  season : NBASeason
  home : NBATeam
  away : NBATeam
deriving Repr, DecidableEq

/-- `sports.NBALeague`. -/
structure NBALeague where
  id : String
  name : String
  leagueAlias : String
deriving Repr, DecidableEq

/-- `NBACrawler` configuration: the guids from `NBACrawlerConfig`, plus
the behaviour of `parseScheduledTime` — a pure reformatting through the
(external) Go `time` library, abstracted as a string function. -/
structure NBAAdapter where
  category : String
  ecosystem : String
  defaultLanguage : String
  parseTime : String → String

/-- `NBACrawler.determineGameStatus`: provider status → `(isLive, stage)`;
unrecognized statuses default to scheduled semantics. -/
def determineGameStatus (status : String) : Int × String :=
  match status with
  | "scheduled" => (1, "Q1")
  | "inprogress" => (0, "Q1")
  | "closed" => (2, "FT")
  | _ => (1, "Q1")

/-- `NBACrawler.ensureTeam`: get-or-create the `team_group` row keyed by
`(providerTeamId, NBA-ecosystem guid)`; on create, GORM back-fills the
generated guid, which the code re-reads, and the localized
`team_group_language` row is inserted.  (The ecosystem lookup goes
through `c.db`, outside the transaction handle, in the source; both see
the same store here.) -/
def ensureTeam (c : NBAAdapter) (team : NBATeam) (st : DBState) :
    Except String (String × DBState) :=
  match getEcosystemByCode st "NBA" with
  | none => .error "NBA ecosystem not found"
  | some nbaEcosystem =>
    match getTeamGroupByExternalId st team.id nbaEcosystem.guid with
    | some existingTeam => .ok (existingTeam.guid, st)
    | none =>
      let (g, st1) := createTeamGroup st
        { guid := "", ecosystemGuid := nbaEcosystem.guid,
          externalId := team.id, logo := "" }
      match getTeamGroupByGUID st1 g with
      | none => .error "failed to retrieve created team"
      | some createdTeam =>
        .ok (createdTeam.guid,
          createTeamGroupLanguage st1
            { guid := "", teamGroupGuid := createdTeam.guid,
              languageGuid := c.defaultLanguage,
              teamAlias := team.teamAlias, name := team.name })

/-- The `info` JSONB payload `processGame` assembles (the `time_zones`
object flattened into dotted keys). -/
def nbaEventInfo (game : NBAGame) (league : NBALeague) : JSONB :=
  [("external_id", .str game.id), ("game_id", .str game.id),
   ("sr_id", .str game.srId), ("reference", .str game.reference),
   ("coverage", .str game.coverage), ("track_on_court", .bool game.trackOnCourt),
   ("league_id", .str league.id), ("league_name", .str league.name),
   ("season_id", .str game.season.id), ("season_year", .num game.season.year),
   ("season_type", .str game.season.seasonType),
   ("scheduled", .str game.scheduled),
   ("time_zones.venue", .str game.timeZones.venue),
   ("time_zones.home", .str game.timeZones.home),
   ("time_zones.away", .str game.timeZones.away),
   ("status", .str game.status)]

/-- `homeScore` / `awayScore`: `strconv.Itoa(*points)`, defaulting to
"0" when the provider omits the field. -/
def nbaScoreOf (pts : Option Int) : String :=
  match pts with
  | some p => toString p
  | none => "0"

/-- The `&database.Event{...}` literal of the NBA create path: note
`IsOnline: false` — a game first sighted while already "closed" is
still created offline (the closed→online override lives only on the
update path). -/
def nbaNewEvent (c : NBAAdapter) (clock : Clock) (game : NBAGame)
    (league : NBALeague) (homeTeamGUID awayTeamGUID eventPeriodGUID gameTime : String) :
    Event :=
  { guid := "", categoryGuid := c.category, ecosystemGuid := c.ecosystem,
    eventPeriodGuid := eventPeriodGUID, mainTeamGroupGuid := homeTeamGUID,
    clusterTeamGroupGuid := awayTeamGUID, externalId := game.id,
    mainScore := nbaScoreOf game.homePoints,
    clusterScore := nbaScoreOf game.awayPoints, price := "", logo := "",
    eventType := 0, experimentResult := "",
    info := nbaEventInfo game league ++ [("open_time", .str gameTime)],
    isOnline := false, isLive := (determineGameStatus game.status).1,
    isSports := true, stage := (determineGameStatus game.status).2,
    updatedAt := clock.unix }

/-- The `updates` map of the NBA update path: scores, status-derived
liveness and stage, payload, team and period references — with the map
entries `is_live := 2` and `is_online := true` overwritten after the
fact when the provider status is "closed". -/
def nbaApplyUpdates (game : NBAGame) (league : NBALeague)
    (homeTeamGUID awayTeamGUID eventPeriodGUID gameTime : String)
    (e : Event) : Event :=
  { e with mainScore := nbaScoreOf game.homePoints,
           clusterScore := nbaScoreOf game.awayPoints,
           isLive := if game.status == "closed" then 2
                     else (determineGameStatus game.status).1,
           isOnline := if game.status == "closed" then true else e.isOnline,
           stage := (determineGameStatus game.status).2,
           info := nbaEventInfo game league ++ [("open_time", .str gameTime)],
           mainTeamGroupGuid := homeTeamGUID,
           clusterTeamGroupGuid := awayTeamGUID,
           eventPeriodGuid := eventPeriodGUID }

/-- The transaction body of `NBACrawler.processGame`: resolve both
teams, look the event up by the provider game id, resolve the period
bucket keyed by the game id, then update in place (with the explicit
`is_live`/`is_online` overrides when the status is "closed") or create
the row.  The create path inserts no `EventLanguage` row. -/
def processGameBody (c : NBAAdapter) (clock : Clock) (game : NBAGame)
    (league : NBALeague) (st : DBState) : Except String DBState := do
  let (homeTeamGUID, st1) ← ensureTeam c game.home st
  let (awayTeamGUID, st2) ← ensureTeam c game.away st1
  let existingEvent := getEventByExternalID st2 game.id
  let gameTime := c.parseTime game.scheduled
  let (eventPeriodGUID, st3) ← ensureEventPeriod game.id
    { guid := "", code := game.id, isActive := true, scheduled := gameTime,
      remark := "NBA game date: " ++ gameTime, extra := [] } st2
  let eventTitle := game.home.name ++ " vs " ++ game.away.name
  match existingEvent with
  | some ev =>
    let st4 := updateEventFields clock.unix ev.guid
      (nbaApplyUpdates game league homeTeamGUID awayTeamGUID eventPeriodGUID gameTime) st3
    pure (upsertEventLanguage c.defaultLanguage ev.guid eventTitle st4)
  | none =>
    let (_, st4) := createEvent st3
      (nbaNewEvent c clock game league homeTeamGUID awayTeamGUID eventPeriodGUID gameTime)
    match getEventByExternalID st4 game.id with
    | none => .error ("created event not found by external_id: " ++ game.id)
    | some _ => pure st4

/-- `processGame`: the body wrapped in one database transaction. -/
def processGame (c : NBAAdapter) (clock : Clock) (game : NBAGame)
    (league : NBALeague) (st : DBState) : Except String Unit × DBState :=
  Transaction (processGameBody c clock game league) st

/-- The `SyncDailySchedule` per-game loop: each game is processed in its
own transaction; on error the adapter logs and `continue`s to the next
game. -/
def syncGames (c : NBAAdapter) (clock : Clock) (league : NBALeague)
    (games : List NBAGame) (st : DBState) : DBState :=
  games.foldl (fun s g => (processGame c clock g league s).2) st

/-! ## The upsert bodies with the language upsert's fallibility exposed

On the update path every adapter runs
`if err := c.updateEventLanguage(txDB, guid, title); err != nil { log.Warn(...) }`:
the store call can fail (a failed read or write inside the
transaction), but the error is only logged — the body still returns
nil and the transaction commits the event-field update.  The pure
store model above is infallible, so to reason about that swallowed
error the bodies are restated with the language-upsert store call as a
parameter; a failed call writes nothing and reports its error, and
instantiating the parameter with the infallible model operation
recovers the bodies above definitionally. -/

/-- `cryptoProcessPriceBody` with the update-path `updateEventLanguage`
store call abstracted as `langUpsert defaultLanguage eventGuid title`. -/
def cryptoProcessPriceBodyFallible
    (langUpsert : String → String → String → DBState → Except String DBState)
    (c : CryptoAdapter) (clock : Clock) (priceData : PriceTick) (st : DBState) :
    Except String DBState :=
  let externalID := c.extPre ++ priceData.symbol
  let existingEvent := getEventByExternalID st externalID
  let price := priceData.price
  let mainScore := "0"
  let clusterScore := "0"
  let dateCode := clock.dateCode
  let periodCode := c.periodPre ++ dateCode
  match ensureEventPeriod periodCode
      { guid := "", code := periodCode, isActive := true,
        scheduled := clock.nowStr,
        remark := "Crypto price date: " ++ dateCode, extra := [] } st with
  | .error e => .error ("failed to ensure event period: " ++ e)
  | .ok (eventPeriodGUID, st1) =>
    let eventInfo : JSONB := cryptoEventInfo externalID clock priceData
    let eventTitle := priceData.symbol ++ " Price"
    match existingEvent with
    | some ev =>
      let st2 := updateEventFields clock.unix ev.guid (fun e =>
        { e with price := price, mainScore := mainScore,
                 clusterScore := clusterScore, isLive := 0, stage := "LIVE",
                 info := eventInfo, eventPeriodGuid := eventPeriodGUID }) st1
      -- the error of the language upsert is logged and swallowed; the
      -- body returns nil either way, committing the event update.
      match langUpsert c.defaultLanguage ev.guid eventTitle st2 with
      | .ok st3 => .ok st3
      | .error _ => .ok st2
    | none =>
      let (_, st2) := createEvent st1 (cryptoNewEvent c clock priceData eventPeriodGUID)
      match getEventByExternalID st2 externalID with
      | none => .error ("created event not found by external_id: " ++ externalID)
      | some createdEvent =>
        .ok (createEventLanguage st2
          (cryptoNewEventLanguage c priceData createdEvent.guid))

/-- `processGameBody` with the update-path `updateEventLanguage` store
call abstracted the same way. -/
def processGameBodyFallible
    (langUpsert : String → String → String → DBState → Except String DBState)
    (c : NBAAdapter) (clock : Clock) (game : NBAGame)
    (league : NBALeague) (st : DBState) : Except String DBState := do
  let (homeTeamGUID, st1) ← ensureTeam c game.home st
  let (awayTeamGUID, st2) ← ensureTeam c game.away st1
  let existingEvent := getEventByExternalID st2 game.id
  let gameTime := c.parseTime game.scheduled
  let (eventPeriodGUID, st3) ← ensureEventPeriod game.id
    { guid := "", code := game.id, isActive := true, scheduled := gameTime,
      remark := "NBA game date: " ++ gameTime, extra := [] } st2
  let eventTitle := game.home.name ++ " vs " ++ game.away.name
  match existingEvent with
  | some ev =>
    let st4 := updateEventFields clock.unix ev.guid
      (nbaApplyUpdates game league homeTeamGUID awayTeamGUID eventPeriodGUID gameTime) st3
    match langUpsert c.defaultLanguage ev.guid eventTitle st4 with
    | .ok st5 => pure st5
    | .error _ => pure st4
  | none =>
    let (_, st4) := createEvent st3
      (nbaNewEvent c clock game league homeTeamGUID awayTeamGUID eventPeriodGUID gameTime)
    match getEventByExternalID st4 game.id with
    | none => .error ("created event not found by external_id: " ++ game.id)
    | some _ => pure st4

/-- The infallible model store's language upsert, as a `langUpsert`
argument. -/
def modelLangUpsert : String → String → String → DBState → Except String DBState :=
  fun lang g title s => .ok (upsertEventLanguage lang g title s)

/-- A language upsert whose store call fails (nothing written, the
error reported). -/
def failingLangUpsert : String → String → String → DBState → Except String DBState :=
  fun _ _ _ _ => .error "failed to update event language"

/-! ## The WebSocket reconnect loop (`runWebSocketStream`)

The loop is byte-identical in the Binance, Bybit and OKX adapters:
start at 5s; after each failed `connectAndSubscribe`, sleep the current
delay and then, only while the delay is still below 60s, multiply it by
1.5; reset to 5s after a successful (re)subscription.  Delays are
`time.Duration` nanoseconds; every reachable delay value is
`5e9·(3/2)^k` for `k ≤ 7`, an integer below `2^53`, so the
`time.Duration(float64(d) * 1.5)` step is exact and is rendered as
exact natural-number arithmetic. -/

/-- `reconnectDelay := 5 * time.Second`, in nanoseconds. -/
def initialReconnectDelay : Nat := 5000000000

/-- `maxReconnectDelay := 60 * time.Second`, in nanoseconds. -/
def maxReconnectDelay : Nat := 60000000000

/-- One failed iteration:
`if reconnectDelay < maxReconnectDelay { reconnectDelay *= 1.5 }`. -/
def nextReconnectDelay (d : Nat) : Nat :=
  if d < maxReconnectDelay then 3 * d / 2 else d

/-- The delay slept at the `(n+1)`-th consecutive connection failure. -/
def reconnectDelaySeq : Nat → Nat
  | 0 => initialReconnectDelay
  | n + 1 => nextReconnectDelay (reconnectDelaySeq n)

/-- The distinct ways one `connectAndSubscribe` session can end.  In
`binance.go` and `okx.go` every path is present; the Bybit wrapper
surfaces only the stop/cancel and connect/subscribe cases (once
connected it blocks on stop/cancel alone). -/
inductive SessionOutcome where
  /-- the select saw the closed `wsStopCh`: `conn.Close(); return nil`. -/
  | stopObserved
  /-- the select saw `ctx.Done()`: `conn.Close(); return nil`. -/
  | ctxCancelled
  /-- the dial failed before anything was subscribed. -/
  | dialFailed (e : String)
  /-- the subscribe write, or reading its confirmation, failed. -/
  | subscribeFailed (e : String)
  /-- the subscription succeeded and the stream was delivering frames;
  the connection later died (read error, or a failed keep-alive
  write). -/
  | streamBroken (e : String)
deriving Repr, DecidableEq

/-- The value `connectAndSubscribe` returns to the reconnect loop: nil
exactly when the stop channel or the context ended the session; every
failure — before or after a successful subscription — returns an
error. -/
def connectAndSubscribeReturn : SessionOutcome → Option String
  | .stopObserved => none
  | .ctxCancelled => none
  | .dialFailed e => some e
  | .subscribeFailed e => some e
  | .streamBroken e => some e

/-- The delay after one iteration of the reconnect loop's `default`
branch: a non-nil return logs, sleeps the current delay and grows it
(`nextReconnectDelay`); only a nil return executes the
`reconnectDelay = 5 * time.Second` assignment — and nil is returned
only on stop/context-cancel, after which the next `select` exits the
loop. -/
def reconnectIter (d : Nat) (o : SessionOutcome) : Nat :=
  match connectAndSubscribeReturn o with
  | some _ => nextReconnectDelay d
  | none => initialReconnectDelay

/-! ## WebSocket stream lifecycle (`StartWebSocketStream` / `StopWebSocketStream`)

The adapter's control state: the `wsRunning` flag and whether the
`wsStopCh` channel has been closed.  The channel is created once in the
constructor and never re-made; `close` is permanent, and a receive from
a closed channel is always ready, so the `select` at the top of
`runWebSocketStream` takes the stop case on its first iteration. -/

structure WSState where
  wsRunning : Bool
  stopClosed : Bool
deriving Repr, DecidableEq

/-- The adapter as constructed (`New*Crawler`): not running, stop
channel open. -/
def initialWSState : WSState := { wsRunning := false, stopClosed := false }

/-- `StartWebSocketStream`: error when already running, else set the
flag and launch `runWebSocketStream`. -/
def startWebSocketStream (s : WSState) : Except String WSState :=
  if s.wsRunning then .error "WebSocket stream is already running"
  else .ok { s with wsRunning := true }

/-- `StopWebSocketStream`: no-op when not running; else close the stop
channel (permanently), close the live socket and clear the flag. -/
def stopWebSocketStream (s : WSState) : WSState :=
  if s.wsRunning then { wsRunning := false, stopClosed := true } else s

/-- What one iteration of `runWebSocketStream`'s `select` does. -/
inductive StreamAction where
  | exit
  | connectAttempt
deriving Repr, DecidableEq

/-- One iteration of the loop: the stop case (closed channel) and the
cancelled-context case both return; only otherwise does the `default`
branch attempt a connection. -/
def runStreamStep (s : WSState) (ctxDone : Bool) : StreamAction :=
  if s.stopClosed || ctxDone then .exit else .connectAttempt

/-- The external operations on the adapter's lifecycle state. -/
inductive WSOp where
  | startOp
  | stopOp
deriving Repr, DecidableEq

/-- Apply one lifecycle call (a failed start leaves the state as is). -/
def applyWSOp (s : WSState) : WSOp → WSState
  | .startOp =>
    match startWebSocketStream s with
    | .ok s1 => s1
    | .error _ => s
  | .stopOp => stopWebSocketStream s

/-- Apply a sequence of lifecycle calls. -/
def applyWSOps (ops : List WSOp) (s : WSState) : WSState :=
  ops.foldl applyWSOp s

/-! ## Wire-format decoding (`handleWebSocketMessage`)

JSON unmarshalling itself is the external `encoding/json` library; the
embeddings start from the typed frame each handler decodes into, plus —
for Bybit — the alternate `last_price` key its generic-map fallback
probes.  Each handler extracts the normalized `PriceTick` (or drops the
frame) before handing it to `processPrice`. -/

/-- The `data` envelope of `BinanceTickerStream` (single-letter wire keys). -/
structure BinanceTickerData where
  eventType : String
  eventTime : Int
  symbol : String
  priceChange : String
  priceChangePercent : String
  weightedAvgPrice : String
  lastPrice : String
  lastQuantity : String
  openPrice : String
  highPrice : String
  lowPrice : String
  totalTradedVolume : String
  totalTradedQuoteVol : String
  openTime : Int
  closeTime : Int
  firstTradeId : Int
  lastTradeId : Int
  totalNumberOfTrades : Int
deriving Repr, DecidableEq

/-- `crypto.BinanceTickerStream`. -/
structure BinanceTickerStream where
  stream : String
  data : BinanceTickerData
deriving Repr, DecidableEq

/-- The tick `BinanceCrawler.handleWebSocketMessage` extracts: empty
`c` (last price) is an error (frame dropped), otherwise
`{Symbol: data.s, Price: data.c}`. -/
def binanceDecodeTick (m : BinanceTickerStream) : Option PriceTick :=
  if m.data.lastPrice == "" then none
  else some { symbol := m.data.symbol, price := m.data.lastPrice }

/-- The `data` object of `BybitTickerStream`. -/
structure BybitTickerData where
  symbol : String
  lastPrice : String
  openPrice : String
  highPrice : String
  lowPrice : String
  prevPrice24h : String
  volume24h : String
  turnover24h : String
  price24hPcnt : String
  change24h : String
deriving Repr, DecidableEq

/-- `crypto.BybitTickerStream`. -/
structure BybitTickerStream where
  topic : String
  msgType : String
  ts : Int
  data : BybitTickerData
deriving Repr, DecidableEq

/-- A Bybit wire frame: the typed push message plus the value of the
alternate `data.last_price` key, when the frame carries one (probed by
the generic-map fallback in `handleWebSocketMessage`). -/
structure BybitWireFrame where
  stream : BybitTickerStream
  lastPriceAltKey : Option String
deriving Repr, DecidableEq

/-- `strings.HasPrefix`, at the character-list level. -/
def strHasPre (pre s : String) : Bool :=
  pre.data.isPrefixOf s.data

/-- `strings.Split(s, sep)` for a one-character separator, at the
character-list level. -/
def splitOnChar (sep : Char) (s : String) : List String :=
  (s.data.splitOn sep).map (fun l => ⟨l⟩)

/-- The tick `BybitCrawler.handleWebSocketMessage` extracts: only
`tickers.`-prefixed topics are price pushes; the last price falls back
to the alternate `last_price` key, the symbol falls back to the topic
suffix; frames with neither are dropped. -/
def bybitDecodeTick (f : BybitWireFrame) : Option PriceTick :=
  if !(strHasPre "tickers." f.stream.topic) then none
  else
    let lastPrice := f.stream.data.lastPrice
    let lastPrice :=
      if lastPrice == "" then
        match f.lastPriceAltKey with
        | some p => if p != "" then p else lastPrice
        | none => lastPrice
      else lastPrice
    if lastPrice == "" then none
    else
      let symbol := f.stream.data.symbol
      let symbol :=
        if symbol == "" then
          let parts := splitOnChar '.' f.stream.topic
          if parts.length ≥ 2 then parts[1]! else symbol
        else symbol
      if symbol == "" then none
      else some { symbol := symbol, price := lastPrice }

/-- One element of the `data` array of `OKXTickerStream`. -/
structure OKXTickerData where
  instId : String
  last : String
  lastSz : String
  askPx : String
  askSz : String
  bidPx : String
  bidSz : String
  open24h : String
  high24h : String
  low24h : String
  vol24h : String
  volCcy24h : String
  ts : String
deriving Repr, DecidableEq

/-- An OKX wire frame: the optional `event` key (control frames) plus
the `arg` envelope and `data` array of `OKXTickerStream`. -/
structure OKXWireFrame where
  event : Option String
  argChannel : String
  argInstId : String
  data : List OKXTickerData
deriving Repr, DecidableEq

/-- `strings.ReplaceAll(instID, "-", "")`: the pattern is the single
character `-` and the replacement is empty, so it is exactly
dash-removal. -/
def removeDashes (s : String) : String :=
  ⟨s.data.filter (fun ch => ch ≠ '-')⟩

/-- The tick `OKXCrawler.handleWebSocketMessage` extracts: control
frames (`pong`/`subscribe`/`unsubscribe`/`error`) are dropped, only the
`tickers` channel is a price push, the first `data` element carries the
price, the `instId` falls back to the `arg` envelope, and the
dash-separated `instId` is mapped back to the slash-less symbol. -/
def okxDecodeTick (f : OKXWireFrame) : Option PriceTick :=
  let isControl :=
    match f.event with
    | some e => e == "pong" || e == "subscribe" || e == "unsubscribe" || e == "error"
    | none => false
  if isControl then none
  else if f.argChannel != "tickers" then none
  else
    match f.data with
    | [] => none
    | tickerData :: _ =>
      if tickerData.last == "" then none
      else
        let instId :=
          if tickerData.instId == "" then f.argInstId else tickerData.instId
        some { symbol := removeDashes instId, price := tickerData.last }

/-! ## Helper lemmas -/

theorem find?_map_of_pred_inv {α : Type} (p : α → Bool) (f : α → α)
    (hp : ∀ x, p (f x) = p x) :
    ∀ l : List α, (l.map f).find? p = (l.find? p).map f := by
  intro l
  induction l with
  | nil => rfl
  | cons x xs ih =>
    by_cases h : p x
    · rw [List.map_cons, List.find?_cons_of_pos _ (by rw [hp]; exact h),
        List.find?_cons_of_pos _ h]
      rfl
    · rw [List.map_cons, List.find?_cons_of_neg _ (by simp [hp, h]),
        List.find?_cons_of_neg _ (by simpa using h), ih]

theorem countP_map_of_pred_inv {α : Type} (p : α → Bool) (f : α → α)
    (hp : ∀ x, p (f x) = p x) :
    ∀ l : List α, (l.map f).countP p = l.countP p := by
  intro l
  induction l with
  | nil => rfl
  | cons x xs ih => rw [List.map_cons, List.countP_cons, List.countP_cons, hp, ih]

theorem countP_eq_zero_of_find?_eq_none {α : Type} {p : α → Bool} {l : List α}
    (h : l.find? p = none) : l.countP p = 0 := by
  rw [List.countP_eq_zero]
  intro a ha
  simpa using List.find?_eq_none.mp h a ha

theorem countP_pos_of_find?_eq_some {α : Type} {p : α → Bool} {l : List α} {a : α}
    (h : l.find? p = some a) : 0 < l.countP p := by
  rw [List.countP_pos_iff]
  exact ⟨a, List.mem_of_find?_eq_some h, List.find?_some h⟩

/-- `ensureEventPeriod` always succeeds in the sequential model, and it
touches only the `event_period` table (plus the guid generator). -/
theorem ensureEventPeriod_ok (periodCode : String) (p : EventPeriod) (st : DBState)
    (hc : p.code = periodCode) :
    ∃ g st1, ensureEventPeriod periodCode p st = .ok (g, st1) ∧
      st1.events = st.events ∧ st1.eventLanguages = st.eventLanguages ∧
      st1.teamGroups = st.teamGroups ∧ st1.teamGroupLanguages = st.teamGroupLanguages ∧
      st1.ecosystems = st.ecosystems := by
  cases hep : getEventPeriodByCode st periodCode with
  | some p0 =>
    exact ⟨p0.guid, st, by simp [ensureEventPeriod, hep], rfl, rfl, rfl, rfl, rfl⟩
  | none =>
    refine ⟨freshGuid st.nextGuid,
      { st with eventPeriods := st.eventPeriods ++ [{ p with guid := freshGuid st.nextGuid }],
                nextGuid := st.nextGuid + 1 }, ?_, rfl, rfl, rfl, rfl, rfl⟩
    have hfind : getEventPeriodByCode
        { st with eventPeriods := st.eventPeriods ++ [{ p with guid := freshGuid st.nextGuid }],
                  nextGuid := st.nextGuid + 1 } periodCode
        = some { p with guid := freshGuid st.nextGuid } := by
      unfold getEventPeriodByCode at hep ⊢
      rw [List.find?_append, hep]
      simp [hc]
    simp only [ensureEventPeriod, hep, createEventPeriod]
    rw [hfind]

/-- `upsertEventLanguage` touches only the `event_language` table (plus
the guid generator). -/
theorem upsertEventLanguage_frame (lang g title : String) (st : DBState) :
    (upsertEventLanguage lang g title st).events = st.events ∧
    (upsertEventLanguage lang g title st).eventPeriods = st.eventPeriods ∧
    (upsertEventLanguage lang g title st).teamGroups = st.teamGroups ∧
    (upsertEventLanguage lang g title st).ecosystems = st.ecosystems := by
  cases hl : getEventLanguage st g lang <;>
    simp [upsertEventLanguage, hl, createEventLanguage, updateEventLanguageRow]

theorem find?_append_singleton {α : Type} {p : α → Bool} (l : List α) (a : α)
    (ha : p a = true) : (l ++ [a]).find? p = (l.find? p).or (some a) := by
  rw [List.find?_append, List.find?_cons_of_pos _ ha]

/-- `ensureTeam` succeeds whenever the NBA ecosystem row exists, and it
touches only the team tables (plus the guid generator). -/
theorem ensureTeam_ok (c : NBAAdapter) (team : NBATeam) (st : DBState)
    (eco : Ecosystem) (h : getEcosystemByCode st "NBA" = some eco) :
    ∃ g st1, ensureTeam c team st = .ok (g, st1) ∧
      st1.events = st.events ∧ st1.eventLanguages = st.eventLanguages ∧
      st1.eventPeriods = st.eventPeriods ∧ st1.ecosystems = st.ecosystems := by
  cases htg : getTeamGroupByExternalId st team.id eco.guid with
  | some t0 =>
    exact ⟨t0.guid, st, by simp [ensureTeam, h, htg], rfl, rfl, rfl, rfl⟩
  | none =>
    simp only [ensureTeam, h, htg, createTeamGroup, getTeamGroupByGUID]
    rw [find?_append_singleton _ _ (by simp)]
    cases hg : st.teamGroups.find? (fun t => t.guid == freshGuid st.nextGuid) with
    | some t1 =>
      exact ⟨t1.guid, _, rfl, rfl, rfl, rfl, rfl⟩
    | none =>
      exact ⟨freshGuid st.nextGuid, _, rfl, rfl, rfl, rfl, rfl⟩

/-- The not-found path of the crypto upsert: it appends exactly one
`event` row (with the create-path field set of the source) and exactly
one `event_language` row for the configured default language,
referencing the new event's database-generated guid. -/
theorem processPrice_create (c : CryptoAdapter) (clock : Clock) (t : PriceTick)
    (st : DBState) (h : getEventByExternalID st (c.extPre ++ t.symbol) = none) :
    ∃ epg e l, processPrice c clock t st = (.ok (), (processPrice c clock t st).2) ∧
      (processPrice c clock t st).2.events = st.events ++ [e] ∧
      (processPrice c clock t st).2.eventLanguages = st.eventLanguages ++ [l] ∧
      e = { cryptoNewEvent c clock t epg with guid := e.guid } ∧
      l = { cryptoNewEventLanguage c t e.guid with guid := l.guid } := by
  obtain ⟨epg, st1, hep, hev, hlang, -, -, -⟩ :=
    ensureEventPeriod_ok (c.periodPre ++ clock.dateCode)
      { guid := "", code := c.periodPre ++ clock.dateCode, isActive := true,
        scheduled := clock.nowStr,
        remark := "Crypto price date: " ++ clock.dateCode, extra := [] } st rfl
  have h' : st.events.find? (fun e => e.externalId == c.extPre ++ t.symbol) = none := h
  refine ⟨epg, { cryptoNewEvent c clock t epg with guid := freshGuid st1.nextGuid },
    { cryptoNewEventLanguage c t (freshGuid st1.nextGuid) with
        guid := freshGuid (st1.nextGuid + 1) }, ?_, ?_, ?_, rfl, rfl⟩ <;>
    simp [processPrice, Transaction, cryptoProcessPriceBody, hep,
      getEventByExternalID, h', createEvent, createEventLanguage, hev, hlang,
      find?_append_singleton, cryptoNewEvent, cryptoNewEventLanguage]

theorem upsertEventLanguage_events (lang g title : String) (st : DBState) :
    (upsertEventLanguage lang g title st).events = st.events := by
  cases hl : getEventLanguage st g lang <;>
    simp [upsertEventLanguage, hl, createEventLanguage, updateEventLanguageRow]

/-- The found path of the crypto upsert: the row carrying the found
guid is rewritten in place by the `updates` map; no event row is added
or removed. -/
theorem processPrice_update (c : CryptoAdapter) (clock : Clock) (t : PriceTick)
    (st : DBState) (ev : Event)
    (h : getEventByExternalID st (c.extPre ++ t.symbol) = some ev) :
    ∃ epg, processPrice c clock t st = (.ok (), (processPrice c clock t st).2) ∧
      (processPrice c clock t st).2.events = st.events.map (fun e =>
        if e.guid == ev.guid then
          { e with price := t.price, mainScore := "0", clusterScore := "0",
                   isLive := 0, stage := "LIVE",
                   info := cryptoEventInfo (c.extPre ++ t.symbol) clock t,
                   eventPeriodGuid := epg, updatedAt := clock.unix }
        else e) := by
  obtain ⟨epg, st1, hep, hev, hlang, -, -, -⟩ :=
    ensureEventPeriod_ok (c.periodPre ++ clock.dateCode)
      { guid := "", code := c.periodPre ++ clock.dateCode, isActive := true,
        scheduled := clock.nowStr,
        remark := "Crypto price date: " ++ clock.dateCode, extra := [] } st rfl
  have h' : st.events.find? (fun e => e.externalId == c.extPre ++ t.symbol) = some ev := h
  refine ⟨epg, ?_, ?_⟩ <;>
    simp [processPrice, Transaction, cryptoProcessPriceBody, hep,
      getEventByExternalID, h', updateEventFields, upsertEventLanguage_events,
      hev, hlang]

/-- The not-found path of the NBA upsert: exactly one `event` row is
appended — and, unlike the crypto adapters, no `event_language` row is
inserted. -/
theorem processGame_create (c : NBAAdapter) (clock : Clock) (game : NBAGame)
    (league : NBALeague) (st : DBState) (eco : Ecosystem)
    (heco : getEcosystemByCode st "NBA" = some eco)
    (hex : getEventByExternalID st game.id = none) :
    ∃ ht aw epg e,
      processGame c clock game league st = (.ok (), (processGame c clock game league st).2) ∧
      (processGame c clock game league st).2.events = st.events ++ [e] ∧
      (processGame c clock game league st).2.eventLanguages = st.eventLanguages ∧
      (processGame c clock game league st).2.ecosystems = st.ecosystems ∧
      e = { nbaNewEvent c clock game league ht aw epg (c.parseTime game.scheduled) with
              guid := e.guid } := by
  obtain ⟨ht, st1, hT1, hev1, hlang1, hper1, heco1⟩ := ensureTeam_ok c game.home st eco heco
  have heco1' : getEcosystemByCode st1 "NBA" = some eco := by
    unfold getEcosystemByCode at heco ⊢
    rw [heco1]
    exact heco
  obtain ⟨aw, st2, hT2, hev2, hlang2, hper2, heco2⟩ := ensureTeam_ok c game.away st1 eco heco1'
  have hev2' : st2.events = st.events := by rw [hev2, hev1]
  obtain ⟨epg, st3, hep, hev3, hlang3, -, -, heco3⟩ :=
    ensureEventPeriod_ok game.id
      { guid := "", code := game.id, isActive := true,
        scheduled := c.parseTime game.scheduled,
        remark := "NBA game date: " ++ c.parseTime game.scheduled, extra := [] } st2 rfl
  have hex2 : st2.events.find? (fun e => e.externalId == game.id) = none := by
    rw [hev2']
    exact hex
  have hexF : st.events.find? (fun e => e.externalId == game.id) = none := hex
  have hev3' : st3.events = st.events := by rw [hev3, hev2']
  have hlang3' : st3.eventLanguages = st.eventLanguages := by
    rw [hlang3, hlang2, hlang1]
  have heco3' : st3.ecosystems = st.ecosystems := by
    rw [heco3, heco2, heco1]
  refine ⟨ht, aw, epg,
    { nbaNewEvent c clock game league ht aw epg (c.parseTime game.scheduled) with
        guid := freshGuid st3.nextGuid }, ?_, ?_, ?_, ?_, rfl⟩ <;>
    simp [processGame, Transaction, processGameBody, bind, Except.bind, pure,
      Except.pure, hT1, hT2, hep, hex2, hexF, Option.none_or,
      getEventByExternalID, createEvent, hev3', hlang3', heco3',
      find?_append_singleton, nbaNewEvent]

/-- The found path of the NBA upsert: the row carrying the found guid
is rewritten in place by the `updates` map (including the "closed"
overrides); no event row is added or removed. -/
theorem processGame_update (c : NBAAdapter) (clock : Clock) (game : NBAGame)
    (league : NBALeague) (st : DBState) (eco : Ecosystem) (ev : Event)
    (heco : getEcosystemByCode st "NBA" = some eco)
    (hex : getEventByExternalID st game.id = some ev) :
    ∃ ht aw epg,
      processGame c clock game league st = (.ok (), (processGame c clock game league st).2) ∧
      (processGame c clock game league st).2.ecosystems = st.ecosystems ∧
      (processGame c clock game league st).2.events = st.events.map (fun e =>
        if e.guid == ev.guid then
          { nbaApplyUpdates game league ht aw epg (c.parseTime game.scheduled) e with
              updatedAt := clock.unix }
        else e) := by
  obtain ⟨ht, st1, hT1, hev1, hlang1, hper1, heco1⟩ := ensureTeam_ok c game.home st eco heco
  have heco1' : getEcosystemByCode st1 "NBA" = some eco := by
    unfold getEcosystemByCode at heco ⊢
    rw [heco1]
    exact heco
  obtain ⟨aw, st2, hT2, hev2, hlang2, hper2, heco2⟩ := ensureTeam_ok c game.away st1 eco heco1'
  have hev2' : st2.events = st.events := by rw [hev2, hev1]
  obtain ⟨epg, st3, hep, hev3, hlang3, -, -, heco3⟩ :=
    ensureEventPeriod_ok game.id
      { guid := "", code := game.id, isActive := true,
        scheduled := c.parseTime game.scheduled,
        remark := "NBA game date: " ++ c.parseTime game.scheduled, extra := [] } st2 rfl
  have hex2 : st2.events.find? (fun e => e.externalId == game.id) = some ev := by
    rw [hev2']
    exact hex
  have hev3' : st3.events = st.events := by rw [hev3, hev2']
  have heco3' : st3.ecosystems = st.ecosystems := by
    rw [heco3, heco2, heco1]
  have hupsEco : ∀ lang g title s, (upsertEventLanguage lang g title s).ecosystems = s.ecosystems := by
    intro lang g title s
    exact (upsertEventLanguage_frame lang g title s).2.2.2
  refine ⟨ht, aw, epg, ?_, ?_, ?_⟩ <;>
    simp [processGame, Transaction, processGameBody, bind, Except.bind, pure,
      Except.pure, hT1, hT2, hep, hex2, getEventByExternalID, updateEventFields,
      upsertEventLanguage_events, hupsEco, hev3', heco3']

/-- One crypto upsert, from any store holding at most one row for the
tick's externalId: afterwards exactly one row holds it, and that row
carries the tick's price. -/
theorem processPrice_step (c : CryptoAdapter) (clock : Clock) (t : PriceTick)
    (st : DBState) (hwf : countByExternalID st (c.extPre ++ t.symbol) ≤ 1) :
    countByExternalID (processPrice c clock t st).2 (c.extPre ++ t.symbol) = 1 ∧
    ∃ e, getEventByExternalID (processPrice c clock t st).2 (c.extPre ++ t.symbol)
           = some e ∧ e.price = t.price := by
  cases hex : getEventByExternalID st (c.extPre ++ t.symbol) with
  | none =>
    obtain ⟨epg, e, l, -, hevents, -, hee, -⟩ := processPrice_create c clock t st hex
    have hext : e.externalId = c.extPre ++ t.symbol := by
      have := congrArg Event.externalId hee
      simpa [cryptoNewEvent] using this
    have hprice : e.price = t.price := by
      have := congrArg Event.price hee
      simpa [cryptoNewEvent] using this
    have hbeq : (e.externalId == c.extPre ++ t.symbol) = true := by simp [hext]
    have hexF : st.events.find? (fun x => x.externalId == c.extPre ++ t.symbol) = none := hex
    have h0 : st.events.countP (fun x => x.externalId == c.extPre ++ t.symbol) = 0 :=
      countP_eq_zero_of_find?_eq_none hexF
    refine ⟨?_, e, ?_, hprice⟩
    · show ((processPrice c clock t st).2.events).countP _ = 1
      rw [hevents, List.countP_append, h0, List.countP_cons, List.countP_nil, hbeq]
      simp
    · show ((processPrice c clock t st).2.events).find? _ = some e
      rw [hevents,
        @find?_append_singleton _ (fun x => x.externalId == c.extPre ++ t.symbol)
          st.events e hbeq, hexF, Option.none_or]
  | some ev =>
    obtain ⟨epg, -, hevents⟩ := processPrice_update c clock t st ev hex
    have hexF : st.events.find? (fun x => x.externalId == c.extPre ++ t.symbol) = some ev := hex
    have hpinv : ∀ x : Event,
        ((if x.guid == ev.guid then
            { x with price := t.price, mainScore := "0", clusterScore := "0",
                     isLive := 0, stage := "LIVE",
                     info := cryptoEventInfo (c.extPre ++ t.symbol) clock t,
                     eventPeriodGuid := epg, updatedAt := clock.unix }
          else x).externalId == c.extPre ++ t.symbol)
        = (x.externalId == c.extPre ++ t.symbol) := by
      intro x
      by_cases hg : x.guid == ev.guid <;> simp [hg]
    have hone : st.events.countP (fun x => x.externalId == c.extPre ++ t.symbol) = 1 := by
      have h1 := countP_pos_of_find?_eq_some hexF
      have h2 : st.events.countP (fun x => x.externalId == c.extPre ++ t.symbol) ≤ 1 := hwf
      omega
    have hfind : ((processPrice c clock t st).2.events).find?
        (fun x => x.externalId == c.extPre ++ t.symbol)
        = some (if (ev.guid == ev.guid) = true then
            { ev with price := t.price, mainScore := "0", clusterScore := "0",
                      isLive := 0, stage := "LIVE",
                      info := cryptoEventInfo (c.extPre ++ t.symbol) clock t,
                      eventPeriodGuid := epg, updatedAt := clock.unix }
          else ev) := by
      rw [hevents, find?_map_of_pred_inv _ _ hpinv, hexF]
      rfl
    refine ⟨?_, _, hfind, ?_⟩
    · show ((processPrice c clock t st).2.events).countP _ = 1
      rw [hevents, countP_map_of_pred_inv _ _ hpinv, hone]
    · simp

/-- One NBA upsert, from any store holding at most one row for the
game id (and holding the NBA ecosystem row): afterwards exactly one
row holds it, and that row carries the update's scores. -/
theorem processGame_step (c : NBAAdapter) (clock : Clock) (game : NBAGame)
    (league : NBALeague) (st : DBState) (eco : Ecosystem)
    (heco : getEcosystemByCode st "NBA" = some eco)
    (hwf : countByExternalID st game.id ≤ 1) :
    countByExternalID (processGame c clock game league st).2 game.id = 1 ∧
    ∃ e, getEventByExternalID (processGame c clock game league st).2 game.id = some e ∧
      e.mainScore = nbaScoreOf game.homePoints ∧
      e.clusterScore = nbaScoreOf game.awayPoints := by
  cases hex : getEventByExternalID st game.id with
  | none =>
    obtain ⟨ht, aw, epg, e, -, hevents, -, -, hee⟩ :=
      processGame_create c clock game league st eco heco hex
    have hext : e.externalId = game.id := by
      have := congrArg Event.externalId hee
      simpa [nbaNewEvent] using this
    have hms : e.mainScore = nbaScoreOf game.homePoints := by
      have := congrArg Event.mainScore hee
      simpa [nbaNewEvent] using this
    have hcs : e.clusterScore = nbaScoreOf game.awayPoints := by
      have := congrArg Event.clusterScore hee
      simpa [nbaNewEvent] using this
    have hbeq : (e.externalId == game.id) = true := by simp [hext]
    have hexF : st.events.find? (fun x => x.externalId == game.id) = none := hex
    have h0 : st.events.countP (fun x => x.externalId == game.id) = 0 :=
      countP_eq_zero_of_find?_eq_none hexF
    refine ⟨?_, e, ?_, hms, hcs⟩
    · show ((processGame c clock game league st).2.events).countP _ = 1
      rw [hevents, List.countP_append, h0, List.countP_cons, List.countP_nil, hbeq]
      simp
    · show ((processGame c clock game league st).2.events).find? _ = some e
      rw [hevents,
        @find?_append_singleton _ (fun x => x.externalId == game.id)
          st.events e hbeq, hexF, Option.none_or]
  | some ev =>
    obtain ⟨ht, aw, epg, -, -, hevents⟩ :=
      processGame_update c clock game league st eco ev heco hex
    have hexF : st.events.find? (fun x => x.externalId == game.id) = some ev := hex
    have hpinv : ∀ x : Event,
        ((if x.guid == ev.guid then
            { nbaApplyUpdates game league ht aw epg (c.parseTime game.scheduled) x with
                updatedAt := clock.unix }
          else x).externalId == game.id)
        = (x.externalId == game.id) := by
      intro x
      by_cases hg : x.guid == ev.guid <;> simp [hg, nbaApplyUpdates]
    have hone : st.events.countP (fun x => x.externalId == game.id) = 1 := by
      have h1 := countP_pos_of_find?_eq_some hexF
      have h2 : st.events.countP (fun x => x.externalId == game.id) ≤ 1 := hwf
      omega
    have hfind : ((processGame c clock game league st).2.events).find?
        (fun x => x.externalId == game.id)
        = some (if (ev.guid == ev.guid) = true then
            { nbaApplyUpdates game league ht aw epg (c.parseTime game.scheduled) ev with
                updatedAt := clock.unix }
          else ev) := by
      rw [hevents, find?_map_of_pred_inv _ _ hpinv, hexF]
      rfl
    refine ⟨?_, _, hfind, ?_, ?_⟩
    · show ((processGame c clock game league st).2.events).countP _ = 1
      rw [hevents, countP_map_of_pred_inv _ _ hpinv, hone]
    · simp [nbaApplyUpdates]
    · simp [nbaApplyUpdates]

/-- `processGame` never touches the `ecosystem` table. -/
theorem processGame_ecosystems (c : NBAAdapter) (clock : Clock) (game : NBAGame)
    (league : NBALeague) (st : DBState) (eco : Ecosystem)
    (heco : getEcosystemByCode st "NBA" = some eco) :
    (processGame c clock game league st).2.ecosystems = st.ecosystems := by
  cases hex : getEventByExternalID st game.id with
  | none =>
    obtain ⟨ht, aw, epg, e, -, -, -, hE, -⟩ :=
      processGame_create c clock game league st eco heco hex
    exact hE
  | some ev =>
    obtain ⟨ht, aw, epg, -, hE, -⟩ :=
      processGame_update c clock game league st eco ev heco hex
    exact hE

/-- A nonempty run of crypto upserts for one symbol, from a store
holding at most one row for its externalId: exactly one row remains and
it carries the price of the last tick. -/
theorem runTicks_unique_row (c : CryptoAdapter) (clock : Clock) (sym : String) :
    ∀ (ticks : List PriceTick) (st : DBState),
      countByExternalID st (c.extPre ++ sym) ≤ 1 →
      (∀ t ∈ ticks, t.symbol = sym) →
      ∀ (hne : ticks ≠ []),
      countByExternalID (runTicks c clock ticks st) (c.extPre ++ sym) = 1 ∧
      ∃ e, getEventByExternalID (runTicks c clock ticks st) (c.extPre ++ sym)
             = some e ∧ e.price = (ticks.getLast hne).price := by
  intro ticks
  induction ticks with
  | nil => intro st _ _ hne; exact absurd rfl hne
  | cons t rest ih =>
    intro st hwf hsym hne
    have ht : t.symbol = sym := hsym t (by simp)
    have hwf' : countByExternalID st (c.extPre ++ t.symbol) ≤ 1 := by
      rw [ht]; exact hwf
    have hstep := processPrice_step c clock t st hwf'
    cases rest with
    | nil =>
      have : runTicks c clock [t] st = (processPrice c clock t st).2 := rfl
      rw [this, List.getLast_singleton]
      rw [ht] at hstep
      exact hstep
    | cons t2 rest2 =>
      have hrun : runTicks c clock (t :: t2 :: rest2) st
          = runTicks c clock (t2 :: rest2) ((processPrice c clock t st).2) := rfl
      have hwf2 : countByExternalID (processPrice c clock t st).2 (c.extPre ++ sym) ≤ 1 := by
        rw [← ht]; exact le_of_eq hstep.1
      have hlast : (t :: t2 :: rest2).getLast hne
          = (t2 :: rest2).getLast (by simp) := List.getLast_cons _
      rw [hrun, hlast]
      exact ih ((processPrice c clock t st).2) hwf2
        (fun x hx => hsym x (List.mem_cons_of_mem _ hx)) (by simp)

/-- A nonempty run of NBA upserts for one game id, from a store that
holds the NBA ecosystem row and at most one row for that id: exactly
one row remains and it carries the scores of the last update. -/
theorem syncGames_unique_row (c : NBAAdapter) (clock : Clock) (league : NBALeague)
    (gid : String) (eco : Ecosystem) :
    ∀ (games : List NBAGame) (st : DBState),
      getEcosystemByCode st "NBA" = some eco →
      countByExternalID st gid ≤ 1 →
      (∀ g ∈ games, g.id = gid) →
      ∀ (hne : games ≠ []),
      countByExternalID (syncGames c clock league games st) gid = 1 ∧
      ∃ e, getEventByExternalID (syncGames c clock league games st) gid = some e ∧
        e.mainScore = nbaScoreOf ((games.getLast hne).homePoints) ∧
        e.clusterScore = nbaScoreOf ((games.getLast hne).awayPoints) := by
  intro games
  induction games with
  | nil => intro st _ _ _ hne; exact absurd rfl hne
  | cons g rest ih =>
    intro st heco hwf hid hne
    have hg : g.id = gid := hid g (by simp)
    have hwf' : countByExternalID st g.id ≤ 1 := by rw [hg]; exact hwf
    have hstep := processGame_step c clock g league st eco heco hwf'
    cases rest with
    | nil =>
      have : syncGames c clock league [g] st = (processGame c clock g league st).2 := rfl
      rw [this, List.getLast_singleton]
      rw [hg] at hstep
      exact hstep
    | cons g2 rest2 =>
      have hrun : syncGames c clock league (g :: g2 :: rest2) st
          = syncGames c clock league (g2 :: rest2) ((processGame c clock g league st).2) := rfl
      have heco2 : getEcosystemByCode (processGame c clock g league st).2 "NBA" = some eco := by
        unfold getEcosystemByCode at heco ⊢
        rw [processGame_ecosystems c clock g league st eco heco]
        exact heco
      have hwf2 : countByExternalID (processGame c clock g league st).2 gid ≤ 1 := by
        rw [← hg]; exact le_of_eq hstep.1
      have hlast : (g :: g2 :: rest2).getLast hne
          = (g2 :: rest2).getLast (by simp) := List.getLast_cons _
      rw [hrun, hlast]
      exact ih ((processGame c clock g league st).2) heco2 hwf2
        (fun x hx => hid x (List.mem_cons_of_mem _ hx)) (by simp)

/-- Field-level consequences of the crypto create path: the row the
re-read finds, and the language row inserted for it. -/
theorem processPrice_create_found (c : CryptoAdapter) (clock : Clock)
    (t : PriceTick) (st : DBState)
    (hex : getEventByExternalID st (c.extPre ++ t.symbol) = none) :
    ∃ e, getEventByExternalID (processPrice c clock t st).2 (c.extPre ++ t.symbol)
           = some e ∧
      e.mainScore = "0" ∧ e.clusterScore = "0" ∧ e.isOnline = true ∧
      e.isLive = 0 ∧ e.stage = "LIVE" ∧ e.price = t.price ∧
      ∃ l, (processPrice c clock t st).2.eventLanguages = st.eventLanguages ++ [l] ∧
        l.eventGuid = e.guid ∧ l.languageGuid = c.defaultLanguage ∧
        l.title = t.symbol ++ " Price" := by
  obtain ⟨epg, e, l, -, hevents, hlangs, hee, hle⟩ := processPrice_create c clock t st hex
  have hext : e.externalId = c.extPre ++ t.symbol := by
    have := congrArg Event.externalId hee
    simpa [cryptoNewEvent] using this
  have hbeq : (e.externalId == c.extPre ++ t.symbol) = true := by simp [hext]
  have hexF : st.events.find? (fun x => x.externalId == c.extPre ++ t.symbol) = none := hex
  have hfind : getEventByExternalID (processPrice c clock t st).2 (c.extPre ++ t.symbol)
      = some e := by
    show ((processPrice c clock t st).2.events).find? _ = some e
    rw [hevents,
      @find?_append_singleton _ (fun x => x.externalId == c.extPre ++ t.symbol)
        st.events e hbeq, hexF, Option.none_or]
  refine ⟨e, hfind, ?_, ?_, ?_, ?_, ?_, ?_, l, hlangs, ?_, ?_, ?_⟩
  · have := congrArg Event.mainScore hee
    simpa [cryptoNewEvent] using this
  · have := congrArg Event.clusterScore hee
    simpa [cryptoNewEvent] using this
  · have := congrArg Event.isOnline hee
    simpa [cryptoNewEvent] using this
  · have := congrArg Event.isLive hee
    simpa [cryptoNewEvent] using this
  · have := congrArg Event.stage hee
    simpa [cryptoNewEvent] using this
  · have := congrArg Event.price hee
    simpa [cryptoNewEvent] using this
  · have := congrArg EventLanguage.eventGuid hle
    simpa [cryptoNewEventLanguage] using this
  · have := congrArg EventLanguage.languageGuid hle
    simpa [cryptoNewEventLanguage] using this
  · have := congrArg EventLanguage.title hle
    simpa [cryptoNewEventLanguage] using this

/-- Field-level consequences of the NBA create path: the created row's
status mapping (`isOnline` stays false even for "closed"), and the fact
that no language row is inserted. -/
theorem processGame_create_found (c : NBAAdapter) (clock : Clock) (game : NBAGame)
    (league : NBALeague) (st : DBState) (eco : Ecosystem)
    (heco : getEcosystemByCode st "NBA" = some eco)
    (hex : getEventByExternalID st game.id = none) :
    ∃ e, getEventByExternalID (processGame c clock game league st).2 game.id = some e ∧
      e.isLive = (determineGameStatus game.status).1 ∧
      e.stage = (determineGameStatus game.status).2 ∧
      e.isOnline = false ∧
      e.mainScore = nbaScoreOf game.homePoints ∧
      e.clusterScore = nbaScoreOf game.awayPoints ∧
      (processGame c clock game league st).2.eventLanguages = st.eventLanguages := by
  obtain ⟨ht, aw, epg, e, -, hevents, hlangs, -, hee⟩ :=
    processGame_create c clock game league st eco heco hex
  have hext : e.externalId = game.id := by
    have := congrArg Event.externalId hee
    simpa [nbaNewEvent] using this
  have hbeq : (e.externalId == game.id) = true := by simp [hext]
  have hexF : st.events.find? (fun x => x.externalId == game.id) = none := hex
  have hfind : getEventByExternalID (processGame c clock game league st).2 game.id
      = some e := by
    show ((processGame c clock game league st).2.events).find? _ = some e
    rw [hevents,
      @find?_append_singleton _ (fun x => x.externalId == game.id) st.events e hbeq,
      hexF, Option.none_or]
  refine ⟨e, hfind, ?_, ?_, ?_, ?_, ?_, hlangs⟩
  · have := congrArg Event.isLive hee
    simpa [nbaNewEvent] using this
  · have := congrArg Event.stage hee
    simpa [nbaNewEvent] using this
  · have := congrArg Event.isOnline hee
    simpa [nbaNewEvent] using this
  · have := congrArg Event.mainScore hee
    simpa [nbaNewEvent] using this
  · have := congrArg Event.clusterScore hee
    simpa [nbaNewEvent] using this

/-- Field-level consequences of the NBA update path: the row the lookup
finds afterwards, with the "closed" overrides applied. -/
theorem processGame_update_found (c : NBAAdapter) (clock : Clock) (game : NBAGame)
    (league : NBALeague) (st : DBState) (eco : Ecosystem) (ev : Event)
    (heco : getEcosystemByCode st "NBA" = some eco)
    (hex : getEventByExternalID st game.id = some ev) :
    ∃ e, getEventByExternalID (processGame c clock game league st).2 game.id = some e ∧
      e.isLive = (if game.status == "closed" then 2
                  else (determineGameStatus game.status).1) ∧
      e.isOnline = (if game.status == "closed" then true else ev.isOnline) ∧
      e.mainScore = nbaScoreOf game.homePoints ∧
      e.clusterScore = nbaScoreOf game.awayPoints := by
  obtain ⟨ht, aw, epg, -, -, hevents⟩ :=
    processGame_update c clock game league st eco ev heco hex
  have hexF : st.events.find? (fun x => x.externalId == game.id) = some ev := hex
  have hpinv : ∀ x : Event,
      ((if x.guid == ev.guid then
          { nbaApplyUpdates game league ht aw epg (c.parseTime game.scheduled) x with
              updatedAt := clock.unix }
        else x).externalId == game.id)
      = (x.externalId == game.id) := by
    intro x
    by_cases hg : x.guid == ev.guid <;> simp [hg, nbaApplyUpdates]
  have hfind : ((processGame c clock game league st).2.events).find?
      (fun x => x.externalId == game.id)
      = some (if (ev.guid == ev.guid) = true then
          { nbaApplyUpdates game league ht aw epg (c.parseTime game.scheduled) ev with
              updatedAt := clock.unix }
        else ev) := by
    rw [hevents, find?_map_of_pred_inv _ _ hpinv, hexF]
    rfl
  refine ⟨_, hfind, ?_, ?_, ?_, ?_⟩ <;> simp [nbaApplyUpdates]

/-! ## Concrete fixtures for counterexamples and witnesses -/

/-- A fixed wall clock for concrete runs. -/
def sampleClock : Clock :=
  { dateCode := "2024-06-01", nowStr := "2024-06-01 12:00:00", unix := 1717243200 }

/-- A Binance adapter with concrete configuration guids. -/
def sampleBinance : CryptoAdapter := binanceCrawler "cat-crypto" "eco-binance" "lang-en"

/-- An NBA adapter with concrete configuration guids; the external time
library reformatting is the identity on this fixture. -/
def sampleNBA : NBAAdapter :=
  { category := "cat-sport", ecosystem := "eco-nba", defaultLanguage := "lang-en",
    parseTime := fun sch => sch }

/-- A store holding only the NBA ecosystem row. -/
def nbaStore : DBState :=
  { DBState.empty with ecosystems := [{ guid := "eco-nba", code := "NBA" }] }

/-- A provider game entry reported as already "closed" with final score
102–98. -/
def closedGame : NBAGame :=
  { id := "game123", status := "closed", scheduled := "2024-06-01T19:00:00Z",
    homePoints := some 102, awayPoints := some 98, coverage := "full",
    trackOnCourt := true, srId := "sr:1", reference := "ref1",
    timeZones := { venue := "US/Pacific", home := "US/Pacific", away := "US/Eastern" },
    season := { id := "s2024", year := 2024, seasonType := "REG" },
    home := { id := "T-LAL", name := "Lakers", teamAlias := "LAL",
              srId := "sr:lal", reference := "lal" },
    away := { id := "T-BOS", name := "Celtics", teamAlias := "BOS",
              srId := "sr:bos", reference := "bos" } }

/-- The league envelope of the sample schedule response. -/
def sampleLeague : NBALeague := { id := "L-NBA", name := "NBA", leagueAlias := "NBA" }

/-- The Binance wire frame reporting BTCUSDT at 50000.12 (a combined
ticker-stream push with the single-letter data keys). -/
def binanceBtcFrame : BinanceTickerStream :=
  { stream := "btcusdt@ticker",
    data := {
      eventType := "24hrTicker", eventTime := 1717243200000, symbol := "BTCUSDT",
      priceChange := "10.0", priceChangePercent := "0.02",
      weightedAvgPrice := "49990.00", lastPrice := "50000.12",
      lastQuantity := "0.5", openPrice := "49900.00", highPrice := "50100.00",
      lowPrice := "49800.00", totalTradedVolume := "1000",
      totalTradedQuoteVol := "50000000", openTime := 1717156800000,
      closeTime := 1717243200000, firstTradeId := 1, lastTradeId := 2,
      totalNumberOfTrades := 2 } }

/-- The Bybit wire frame reporting BTCUSDT at 50000.12 (a
`tickers.`-topic push; no alternate `last_price` key present). -/
def bybitBtcFrame : BybitWireFrame :=
  { stream := {
      topic := "tickers.BTCUSDT", msgType := "snapshot", ts := 1717243200000,
      data := {
        symbol := "BTCUSDT", lastPrice := "50000.12", openPrice := "49900.00",
        highPrice := "50100.00", lowPrice := "49800.00",
        prevPrice24h := "49990.12", volume24h := "1000",
        turnover24h := "50000000", price24hPcnt := "0.0002",
        change24h := "10.0" } },
    lastPriceAltKey := none }

/-- The OKX wire frame reporting BTC-USDT at 50000.12 (the dash-separated
`instId`, to be mapped back to the slash-less symbol). -/
def okxBtcFrame : OKXWireFrame :=
  { event := none, argChannel := "tickers", argInstId := "BTC-USDT",
    data := [{
      instId := "BTC-USDT", last := "50000.12", lastSz := "0.5",
      askPx := "50000.20", askSz := "1", bidPx := "50000.00", bidSz := "1",
      open24h := "49900.00", high24h := "50100.00", low24h := "49800.00",
      vol24h := "1000", volCcy24h := "50000000", ts := "1717243200000" }] }

/-- A transaction body that fails (e.g. a constraint violation surfaced
by the store). -/
def failingBody : DBState → Except String DBState :=
  fun _ => .error "constraint violation"

/-- A store already holding the BTCUSDT event (and its language row),
as left by one Binance tick from the empty store. -/
def stWithBtc : DBState :=
  (processPrice sampleBinance sampleClock
    { symbol := "BTCUSDT", price := "65000.50" } DBState.empty).2

/-! ## The claims -/

/-- C3 counterexample: the delay slept at the 8th consecutive failure is
85.4296875 s — beyond the claimed 60 s cap, because the source multiplies
by 1.5 whenever the delay is still below 60 s, overshooting on the last
step. -/
theorem reconnect_delay_exceeds_cap_cex :
    reconnectDelaySeq 7 = 85429687500 ∧ maxReconnectDelay < reconnectDelaySeq 7 := by
  decide

theorem nextReconnectDelay_ge (d : Nat) : d ≤ nextReconnectDelay d := by
  unfold nextReconnectDelay
  split
  · omega
  · exact le_rfl

theorem reconnectDelaySeq_stable : ∀ n, reconnectDelaySeq (7 + n) = reconnectDelaySeq 7
  | 0 => rfl
  | n + 1 => by
    have h := reconnectDelaySeq_stable n
    show nextReconnectDelay (reconnectDelaySeq (7 + n)) = reconnectDelaySeq 7
    rw [h]
    decide

/-- C3 (amended): the reconnect-delay sequence starts at 5 s and is
non-decreasing over consecutive failures, but neither the claimed 60 s
cap nor the claimed reset holds.  The cap: the multiplication applies
whenever the delay is still below 60 s, so the sequence peaks at (and
never exceeds) 85 429 687 500 ns ≈ 85.43 s, from the 8th consecutive
failure on.  The reset: `reconnectDelay = 5s` is assigned only when
`connectAndSubscribe` returns nil, which happens only on
stop/context-cancel — right before the loop exits; a session that
subscribed successfully and later broke returns an error and grows the
delay exactly like a failed dial, so a successful (re)subscription
never resets the delay for the next reconnect. -/
theorem reconnect_backoff_overshoot_and_no_reset (n d : Nat) (e : String) :
    reconnectDelaySeq 0 = initialReconnectDelay ∧
    reconnectDelaySeq n ≤ reconnectDelaySeq (n + 1) ∧
    reconnectDelaySeq n ≤ 85429687500 ∧
    reconnectDelaySeq (n + 1) = reconnectIter (reconnectDelaySeq n) (.dialFailed e) ∧
    reconnectIter d (.streamBroken e) = nextReconnectDelay d ∧
    (∀ o, reconnectIter d o = nextReconnectDelay d ∨
       (connectAndSubscribeReturn o = none ∧
        (o = .stopObserved ∨ o = .ctxCancelled) ∧
        reconnectIter d o = initialReconnectDelay)) := by
  refine ⟨rfl, nextReconnectDelay_ge _, ?_, rfl, rfl, ?_⟩
  · by_cases h : n ≤ 7
    · interval_cases n <;> decide
    · obtain ⟨m, rfl⟩ : ∃ m, n = 7 + m := ⟨n - 7, by omega⟩
      rw [reconnectDelaySeq_stable]
      decide
  · intro o
    cases o with
    | stopObserved => exact Or.inr ⟨rfl, Or.inl rfl, rfl⟩
    | ctxCancelled => exact Or.inr ⟨rfl, Or.inr rfl, rfl⟩
    | dialFailed e2 => exact Or.inl rfl
    | subscribeFailed e2 => exact Or.inl rfl
    | streamBroken e2 => exact Or.inl rfl

/-- C7 counterexample: with one BTCUSDT event in the store, an update
tick whose language-upsert store call fails still commits — the
transaction reports success (no error reaches the caller) and the
committed state differs from the pre-state: the event's price was
updated while the language row was not.  A failed step thus leaves a
committed partial post-state, which the claim rules out. -/
theorem language_upsert_error_still_commits_cex :
    (Transaction (cryptoProcessPriceBodyFallible failingLangUpsert sampleBinance
        sampleClock { symbol := "BTCUSDT", price := "70000.00" }) stWithBtc).1
      = .ok () ∧
    (Transaction (cryptoProcessPriceBodyFallible failingLangUpsert sampleBinance
        sampleClock { symbol := "BTCUSDT", price := "70000.00" }) stWithBtc).2
      ≠ stWithBtc ∧
    (getEventByExternalID
        (Transaction (cryptoProcessPriceBodyFallible failingLangUpsert sampleBinance
          sampleClock { symbol := "BTCUSDT", price := "70000.00" }) stWithBtc).2
        "BINANCE_BTCUSDT").map (fun e => e.price) = some "70000.00" := by
  refine ⟨rfl, by decide, by decide⟩

/-- C7 (amended): each upsert runs inside one `DB.Transaction`; an
error from the period resolution, the event lookup, the field update,
the creation or the re-read aborts the whole transaction — rolled back
to the pre-state, no partial post-state committed — and the error is
returned to the caller, which drops only that one input record.  The
one exception is the update-path `EventLanguage` upsert: its error is
only logged (`log.Warn`) and swallowed in all four adapters, so the
transaction still commits the event-field update while the language
table is left untouched, and the caller sees success. -/
theorem upsert_transaction_atomicity_except_language_upsert
    (f : DBState → Except String DBState) (st : DBState) :
    (∀ e, (Transaction f st).1 = .error e →
       (Transaction f st).2 = st ∧ f st = .error e) ∧
    (∀ st1, f st = .ok st1 → Transaction f st = (.ok (), st1)) ∧
    (∀ (c : CryptoAdapter) (clock : Clock) (t : PriceTick),
       processPrice c clock t st = Transaction (cryptoProcessPriceBody c clock t) st) ∧
    (∀ (c : NBAAdapter) (clock : Clock) (game : NBAGame) (league : NBALeague),
       processGame c clock game league st
         = Transaction (processGameBody c clock game league) st) ∧
    (∀ (c : NBAAdapter) (clock : Clock) (league : NBALeague) (g : NBAGame)
       (rest : List NBAGame) (e : String),
       (processGame c clock g league st).1 = .error e →
       syncGames c clock league (g :: rest) st = syncGames c clock league rest st) ∧
    (∀ (c : CryptoAdapter) (clock : Clock) (t : PriceTick),
       cryptoProcessPriceBodyFallible modelLangUpsert c clock t st
         = cryptoProcessPriceBody c clock t st) ∧
    (∀ (c : NBAAdapter) (clock : Clock) (game : NBAGame) (league : NBALeague),
       processGameBodyFallible modelLangUpsert c clock game league st
         = processGameBody c clock game league st) ∧
    (∀ (err : String) (c : CryptoAdapter) (clock : Clock) (t : PriceTick) (ev : Event),
       getEventByExternalID st (c.extPre ++ t.symbol) = some ev →
       (Transaction (cryptoProcessPriceBodyFallible
           (fun lang g title s => .error err) c clock t) st).1 = .ok () ∧
       (Transaction (cryptoProcessPriceBodyFallible
           (fun lang g title s => .error err) c clock t) st).2.events
         = (processPrice c clock t st).2.events ∧
       (Transaction (cryptoProcessPriceBodyFallible
           (fun lang g title s => .error err) c clock t) st).2.eventLanguages
         = st.eventLanguages) ∧
    (∀ (err : String) (c : NBAAdapter) (clock : Clock) (game : NBAGame)
       (league : NBALeague) (eco : Ecosystem) (ev : Event),
       getEcosystemByCode st "NBA" = some eco →
       getEventByExternalID st game.id = some ev →
       (Transaction (processGameBodyFallible
           (fun lang g title s => .error err) c clock game league) st).1 = .ok () ∧
       (Transaction (processGameBodyFallible
           (fun lang g title s => .error err) c clock game league) st).2.events
         = (processGame c clock game league st).2.events ∧
       (Transaction (processGameBodyFallible
           (fun lang g title s => .error err) c clock game league) st).2.eventLanguages
         = st.eventLanguages) := by
  refine ⟨?_, ?_, fun _ _ _ => rfl, fun _ _ _ _ => rfl, ?_,
    fun _ _ _ => rfl, fun _ _ _ _ => rfl, ?_, ?_⟩
  · intro e he
    cases hf : f st with
    | ok st1 => simp [Transaction, hf] at he
    | error e1 =>
      have heq : e1 = e := by simpa [Transaction, hf] using he
      refine ⟨by simp [Transaction, hf], ?_⟩
      rw [heq]
  · intro st1 h1
    simp [Transaction, h1]
  · intro c clock league g rest e he
    have hroll : (processGame c clock g league st).2 = st := by
      unfold processGame at he ⊢
      cases hf : processGameBody c clock g league st with
      | ok s1 => simp [Transaction, hf] at he
      | error e1 => simp [Transaction, hf]
    show syncGames c clock league rest ((processGame c clock g league st).2)
      = syncGames c clock league rest st
    rw [hroll]
  · intro err c clock t ev hex
    obtain ⟨epg, st1, hep, hev, hlang, -, -, -⟩ :=
      ensureEventPeriod_ok (c.periodPre ++ clock.dateCode)
        { guid := "", code := c.periodPre ++ clock.dateCode, isActive := true,
          scheduled := clock.nowStr,
          remark := "Crypto price date: " ++ clock.dateCode, extra := [] } st rfl
    have h' : st.events.find? (fun e => e.externalId == c.extPre ++ t.symbol)
        = some ev := hex
    refine ⟨?_, ?_, ?_⟩ <;>
      simp [Transaction, cryptoProcessPriceBodyFallible, processPrice,
        cryptoProcessPriceBody, hep, getEventByExternalID, h',
        updateEventFields, upsertEventLanguage_events, hev, hlang]
  · intro err c clock game league eco ev heco hex
    obtain ⟨ht, st1, hT1, hev1, hlang1, hper1, heco1⟩ :=
      ensureTeam_ok c game.home st eco heco
    have heco1' : getEcosystemByCode st1 "NBA" = some eco := by
      unfold getEcosystemByCode at heco ⊢
      rw [heco1]
      exact heco
    obtain ⟨aw, st2, hT2, hev2, hlang2, hper2, heco2⟩ :=
      ensureTeam_ok c game.away st1 eco heco1'
    have hev2' : st2.events = st.events := by rw [hev2, hev1]
    obtain ⟨epg, st3, hep, hev3, hlang3, -, -, -⟩ :=
      ensureEventPeriod_ok game.id
        { guid := "", code := game.id, isActive := true,
          scheduled := c.parseTime game.scheduled,
          remark := "NBA game date: " ++ c.parseTime game.scheduled, extra := [] } st2 rfl
    have hex2 : st2.events.find? (fun e => e.externalId == game.id) = some ev := by
      rw [hev2']
      exact hex
    have hev3' : st3.events = st.events := by rw [hev3, hev2']
    have hlang3' : st3.eventLanguages = st.eventLanguages := by
      rw [hlang3, hlang2, hlang1]
    refine ⟨?_, ?_, ?_⟩ <;>
      simp [Transaction, processGameBodyFallible, processGame, processGameBody,
        bind, Except.bind, pure, Except.pure, hT1, hT2, hep, hex2,
        getEventByExternalID, updateEventFields, upsertEventLanguage_events,
        hev3', hlang3']

/-- C7 witness: a failing body aborts with its error and the store is
exactly the pre-state. -/
theorem upsert_transaction_atomicity_except_language_upsert_witness :
    (Transaction failingBody DBState.empty).2 = DBState.empty ∧
    failingBody DBState.empty = .error "constraint violation" :=
  (upsert_transaction_atomicity_except_language_upsert failingBody DBState.empty).1
    "constraint violation" rfl

/-- C8: the three exchange decoders agree on corresponding wire frames
reporting BTCUSDT at 50000.12 — including OKX's dash-separated
`BTC-USDT` being mapped back to `BTCUSDT`. -/
theorem normalization_equivalence_btc :
    binanceDecodeTick binanceBtcFrame = some { symbol := "BTCUSDT", price := "50000.12" } ∧
    bybitDecodeTick bybitBtcFrame = some { symbol := "BTCUSDT", price := "50000.12" } ∧
    okxDecodeTick okxBtcFrame = some { symbol := "BTCUSDT", price := "50000.12" } := by
  refine ⟨?_, ?_, ?_⟩ <;> decide

/-- C9: resolving an `EventPeriod` by code is get-or-create: from a
store holding at most one row for the code, the call succeeds, exactly
one row for the code remains, and any further resolution with the same
code returns the same guid without touching the store. -/
theorem event_period_resolution_idempotent (code : String) (p1 : EventPeriod)
    (st : DBState) (hc : p1.code = code)
    (hwf : countPeriodsByCode st code ≤ 1) :
    ∃ g st1, ensureEventPeriod code p1 st = .ok (g, st1) ∧
      countPeriodsByCode st1 code = 1 ∧
      ∀ p2, p2.code = code → ensureEventPeriod code p2 st1 = .ok (g, st1) := by
  cases hep : getEventPeriodByCode st code with
  | some p0 =>
    refine ⟨p0.guid, st, by simp [ensureEventPeriod, hep], ?_, ?_⟩
    · have hepF : st.eventPeriods.find? (fun p => p.code == code) = some p0 := hep
      have h1 := countP_pos_of_find?_eq_some hepF
      have h2 : st.eventPeriods.countP (fun p => p.code == code) ≤ 1 := hwf
      show st.eventPeriods.countP (fun p => p.code == code) = 1
      omega
    · intro p2 hc2
      simp [ensureEventPeriod, hep]
  | none =>
    have hepF : st.eventPeriods.find? (fun p => p.code == code) = none := hep
    have h0 := countP_eq_zero_of_find?_eq_none hepF
    have hbeq : (({ p1 with guid := freshGuid st.nextGuid } : EventPeriod).code == code)
        = true := by simp [hc]
    have hfind : (st.eventPeriods ++ [{ p1 with guid := freshGuid st.nextGuid }]).find?
        (fun p => p.code == code) = some { p1 with guid := freshGuid st.nextGuid } := by
      rw [@find?_append_singleton _ (fun p => p.code == code) st.eventPeriods _ hbeq,
        hepF, Option.none_or]
    refine ⟨freshGuid st.nextGuid,
      { st with
          eventPeriods := st.eventPeriods ++ [{ p1 with guid := freshGuid st.nextGuid }],
          nextGuid := st.nextGuid + 1 }, ?_, ?_, ?_⟩
    · simp only [ensureEventPeriod, hepF, createEventPeriod, getEventPeriodByCode]
      rw [hfind]
    · show (st.eventPeriods ++ [{ p1 with guid := freshGuid st.nextGuid }]).countP
          (fun p : EventPeriod => p.code == code) = 1
      rw [List.countP_append, h0, List.countP_cons, List.countP_nil, hbeq]
      simp
    · intro p2 hc2
      simp only [ensureEventPeriod, getEventPeriodByCode]
      rw [hfind]

/-- C9 witness: a fresh resolution of a concrete code, followed by a
second resolution, returns the same guid and keeps exactly one row. -/
theorem event_period_resolution_idempotent_witness :
    ∃ g st1, ensureEventPeriod "CRYPTO_BINANCE__2024-06-01"
        { guid := "", code := "CRYPTO_BINANCE__2024-06-01", isActive := true,
          scheduled := "2024-06-01 12:00:00",
          remark := "Crypto price date: 2024-06-01", extra := [] }
        DBState.empty = .ok (g, st1) ∧
      countPeriodsByCode st1 "CRYPTO_BINANCE__2024-06-01" = 1 ∧
      ∀ p2, p2.code = "CRYPTO_BINANCE__2024-06-01" →
        ensureEventPeriod "CRYPTO_BINANCE__2024-06-01" p2 st1 = .ok (g, st1) :=
  event_period_resolution_idempotent "CRYPTO_BINANCE__2024-06-01"
    { guid := "", code := "CRYPTO_BINANCE__2024-06-01", isActive := true,
      scheduled := "2024-06-01 12:00:00",
      remark := "Crypto price date: 2024-06-01", extra := [] }
    DBState.empty rfl (by decide)

/-- C10: once `StopWebSocketStream` has closed the stop channel, a later
`StartWebSocketStream` still reports success, but the relaunched loop
observes the closed — and never re-created — channel and exits on its
first iteration; no sequence of further start/stop calls ever reopens
it, so the adapter is permanently unrestartable. -/
theorem stop_websocket_permanent (s : WSState) (hrun : s.wsRunning = true) :
    startWebSocketStream (stopWebSocketStream s)
      = .ok { stopWebSocketStream s with wsRunning := true } ∧
    (∀ (ops : List WSOp) (ctxDone : Bool),
      runStreamStep (applyWSOps ops { stopWebSocketStream s with wsRunning := true })
        ctxDone = .exit) ∧
    (∀ ops : List WSOp, (applyWSOps ops (stopWebSocketStream s)).stopClosed = true) := by
  have hstop : stopWebSocketStream s = { wsRunning := false, stopClosed := true } := by
    simp [stopWebSocketStream, hrun]
  have hpres : ∀ (ops : List WSOp) (w : WSState), w.stopClosed = true →
      (applyWSOps ops w).stopClosed = true := by
    intro ops
    induction ops with
    | nil => intro w hw; exact hw
    | cons op rest ih =>
      intro w hw
      refine ih (applyWSOp w op) ?_
      cases op with
      | startOp =>
        by_cases h : w.wsRunning <;>
          simp [applyWSOp, startWebSocketStream, h, hw]
      | stopOp =>
        by_cases h : w.wsRunning <;>
          simp [applyWSOp, stopWebSocketStream, h, hw]
  refine ⟨by rw [hstop]; rfl, ?_, ?_⟩
  · intro ops ctxDone
    have hc := hpres ops { stopWebSocketStream s with wsRunning := true } (by rw [hstop])
    simp [runStreamStep, hc]
  · intro ops
    exact hpres ops _ (by rw [hstop])

/-- C10 witness: at a concrete running adapter, stop then start reports
success, and the relaunched loop exits immediately even after further
start/stop calls. -/
theorem stop_websocket_permanent_witness :
    startWebSocketStream (stopWebSocketStream { wsRunning := true, stopClosed := false })
      = .ok { wsRunning := true, stopClosed := true } ∧
    runStreamStep (applyWSOps [WSOp.startOp, WSOp.stopOp, WSOp.startOp]
      { wsRunning := true, stopClosed := true }) false = .exit ∧
    (applyWSOps [WSOp.startOp] (stopWebSocketStream
      { wsRunning := true, stopClosed := false })).stopClosed = true := by
  have h := stop_websocket_permanent { wsRunning := true, stopClosed := false } rfl
  exact ⟨h.1, h.2.1 [WSOp.startOp, WSOp.stopOp, WSOp.startOp] false, h.2.2 [WSOp.startOp]⟩

/-- C1: upserts are keyed by externalId — every call first looks the
event up by externalId, updates the row in place when found and
creates exactly one row when absent, so after any nonempty sequence of
upserts with one externalId exactly one Event row holds it, carrying
the latest tick's values (the price for crypto, the scores for
sports). -/
theorem upsert_externalId_idempotent_unique_row :
    (∀ (c : CryptoAdapter) (clock : Clock) (sym : String) (ticks : List PriceTick)
       (st : DBState),
       countByExternalID st (c.extPre ++ sym) ≤ 1 →
       (∀ t ∈ ticks, t.symbol = sym) →
       ∀ (hne : ticks ≠ []),
       countByExternalID (runTicks c clock ticks st) (c.extPre ++ sym) = 1 ∧
       ∃ e, getEventByExternalID (runTicks c clock ticks st) (c.extPre ++ sym)
              = some e ∧ e.price = (ticks.getLast hne).price) ∧
    (∀ (c : NBAAdapter) (clock : Clock) (league : NBALeague) (gid : String)
       (eco : Ecosystem) (games : List NBAGame) (st : DBState),
       getEcosystemByCode st "NBA" = some eco →
       countByExternalID st gid ≤ 1 →
       (∀ g ∈ games, g.id = gid) →
       ∀ (hne : games ≠ []),
       countByExternalID (syncGames c clock league games st) gid = 1 ∧
       ∃ e, getEventByExternalID (syncGames c clock league games st) gid = some e ∧
         e.mainScore = nbaScoreOf ((games.getLast hne).homePoints) ∧
         e.clusterScore = nbaScoreOf ((games.getLast hne).awayPoints)) :=
  ⟨fun c clock sym ticks st hwf hsym hne =>
     runTicks_unique_row c clock sym ticks st hwf hsym hne,
   fun c clock league gid eco games st heco hwf hid hne =>
     syncGames_unique_row c clock league gid eco games st heco hwf hid hne⟩

/-- C1 witness: the same Binance symbol processed twice from the empty
store leaves exactly one row, holding the later price. -/
theorem upsert_externalId_idempotent_unique_row_witness :
    countByExternalID (runTicks sampleBinance sampleClock
        [{ symbol := "BTCUSDT", price := "65000.50" },
         { symbol := "BTCUSDT", price := "70000.00" }] DBState.empty)
      "BINANCE_BTCUSDT" = 1 ∧
    ∃ e, getEventByExternalID (runTicks sampleBinance sampleClock
        [{ symbol := "BTCUSDT", price := "65000.50" },
         { symbol := "BTCUSDT", price := "70000.00" }] DBState.empty)
      "BINANCE_BTCUSDT" = some e ∧ e.price = "70000.00" := by
  have h := upsert_externalId_idempotent_unique_row.1 sampleBinance sampleClock
    "BTCUSDT"
    [{ symbol := "BTCUSDT", price := "65000.50" },
     { symbol := "BTCUSDT", price := "70000.00" }]
    DBState.empty (by decide) (by decide) (by decide)
  simpa [sampleBinance, binanceCrawler] using h

/-- C2 counterexample: a game first sighted with provider status
"closed" goes down the create path, and the created row has
`isLive = 2` but `isOnline = false` — not the claimed `isOnline = true`
(the closed→online override exists only on the update path). -/
theorem closed_game_first_sighting_offline_cex :
    (getEventByExternalID
        (processGame sampleNBA sampleClock closedGame sampleLeague nbaStore).2
        "game123").map (fun e => (e.isLive, e.isOnline))
      = some (2, false) ∧ ((2 : Int), false) ≠ ((2 : Int), true) := by
  refine ⟨?_, by decide⟩
  decide

/-- C2 (amended): provider status "closed" always yields `isLive = 2`;
it yields `isOnline = true` on the update path (a previously seen game,
even one previously "inprogress"), but on the create path (first
sighting) the new row is stored with `isOnline = false`. -/
theorem closed_status_mapping_by_path (c : NBAAdapter) (clock : Clock)
    (game : NBAGame) (league : NBALeague) (st : DBState) (eco : Ecosystem)
    (heco : getEcosystemByCode st "NBA" = some eco)
    (hclosed : game.status = "closed") :
    (∀ ev, getEventByExternalID st game.id = some ev →
      ∃ e, getEventByExternalID (processGame c clock game league st).2 game.id
             = some e ∧ e.isLive = 2 ∧ e.isOnline = true) ∧
    (getEventByExternalID st game.id = none →
      ∃ e, getEventByExternalID (processGame c clock game league st).2 game.id
             = some e ∧ e.isLive = 2 ∧ e.isOnline = false) := by
  constructor
  · intro ev hex
    obtain ⟨e, hfind, hlive, honline, -, -⟩ :=
      processGame_update_found c clock game league st eco ev heco hex
    refine ⟨e, hfind, ?_, ?_⟩
    · rw [hlive]
      simp [hclosed]
    · rw [honline]
      simp [hclosed]
  · intro hex
    obtain ⟨e, hfind, hlive, -, honline, -, -, -⟩ :=
      processGame_create_found c clock game league st eco heco hex
    refine ⟨e, hfind, ?_, honline⟩
    rw [hlive, hclosed]
    rfl

/-- C2 witness: the concrete closed game, first created (offline,
`isLive = 2`) and then re-processed (update path: now online). -/
theorem closed_status_mapping_by_path_witness :
    (∃ e, getEventByExternalID
        (processGame sampleNBA sampleClock closedGame sampleLeague
          (processGame sampleNBA sampleClock closedGame sampleLeague nbaStore).2).2
        "game123" = some e ∧ e.isLive = 2 ∧ e.isOnline = true) ∧
    (∃ e, getEventByExternalID
        (processGame sampleNBA sampleClock closedGame sampleLeague nbaStore).2
        "game123" = some e ∧ e.isLive = 2 ∧ e.isOnline = false) := by
  have h1 := closed_status_mapping_by_path sampleNBA sampleClock closedGame
    sampleLeague nbaStore { guid := "eco-nba", code := "NBA" } (by decide) (by decide)
  have hcreate := h1.2 (by decide)
  have h2 := closed_status_mapping_by_path sampleNBA sampleClock closedGame
    sampleLeague (processGame sampleNBA sampleClock closedGame sampleLeague nbaStore).2
    { guid := "eco-nba", code := "NBA" }
    (by decide) (by decide)
  exact ⟨Exists.elim hcreate (fun e0 he => h2.1 e0 he.1), hcreate⟩

/-- C4 counterexample: the Binance create path stores the new row with
`isOnline = true`, not the claimed `false` (so do Bybit and OKX — the
amended theorem covers all three). -/
theorem crypto_create_isOnline_cex :
    (getEventByExternalID
        (processPrice sampleBinance sampleClock
          { symbol := "BTCUSDT", price := "65000.50" } DBState.empty).2
        "BINANCE_BTCUSDT").map (fun e => (e.mainScore, e.clusterScore, e.isOnline))
      = some ("0", "0", true) ∧ (true : Bool) ≠ false := by
  refine ⟨?_, by decide⟩
  decide

/-- C4 (amended): whenever a crypto-price upsert finds no existing
event for the externalId, the newly inserted row has
`mainScore = clusterScore = "0"` and `isOnline = true`, for every
crypto adapter (Binance, Bybit, OKX). -/
theorem crypto_create_defaults (category ecosystem lang : String) (clock : Clock)
    (t : PriceTick) (st : DBState) (c : CryptoAdapter)
    (hc : c ∈ [binanceCrawler category ecosystem lang,
               bybitCrawler category ecosystem lang,
               okxCrawler category ecosystem lang])
    (hex : getEventByExternalID st (c.extPre ++ t.symbol) = none) :
    ∃ e, getEventByExternalID (processPrice c clock t st).2 (c.extPre ++ t.symbol)
           = some e ∧
      e.mainScore = "0" ∧ e.clusterScore = "0" ∧ e.isOnline = true := by
  obtain ⟨e, hfind, hms, hcs, hon, -, -, -, -⟩ :=
    processPrice_create_found c clock t st hex
  exact ⟨e, hfind, hms, hcs, hon⟩

/-- C4 witness: the Bybit adapter at a concrete tick on the empty
store. -/
theorem crypto_create_defaults_witness :
    ∃ e, getEventByExternalID
        (processPrice (bybitCrawler "cat-crypto" "eco-bybit" "lang-en") sampleClock
          { symbol := "ETHUSDT", price := "3000.00" } DBState.empty).2
        ((bybitCrawler "cat-crypto" "eco-bybit" "lang-en").extPre ++ "ETHUSDT")
        = some e ∧
      e.mainScore = "0" ∧ e.clusterScore = "0" ∧ e.isOnline = true :=
  crypto_create_defaults "cat-crypto" "eco-bybit" "lang-en" sampleClock
    { symbol := "ETHUSDT", price := "3000.00" } DBState.empty
    (bybitCrawler "cat-crypto" "eco-bybit" "lang-en") (by simp) (by decide)

/-- C5 counterexample: the NBA create path inserts no `EventLanguage`
row — processing a fresh game from a store with no language rows leaves
the `event_language` table empty while one event row was created. -/
theorem nba_create_no_language_row_cex :
    (processGame sampleNBA sampleClock closedGame sampleLeague nbaStore).2.eventLanguages
      = [] ∧
    countByExternalID (processGame sampleNBA sampleClock closedGame sampleLeague
      nbaStore).2 "game123" = 1 := by
  refine ⟨?_, ?_⟩ <;> decide

/-- C5 (amended): on the not-found path, every crypto adapter inserts
the matching `EventLanguage` row for the configured default language,
referencing the created event's guid — but the NBA adapter does not:
its create path leaves the `event_language` table unchanged. -/
theorem create_path_language_rows :
    (∀ (c : CryptoAdapter) (clock : Clock) (t : PriceTick) (st : DBState),
       getEventByExternalID st (c.extPre ++ t.symbol) = none →
       ∃ e l, getEventByExternalID (processPrice c clock t st).2 (c.extPre ++ t.symbol)
                = some e ∧
         (processPrice c clock t st).2.eventLanguages = st.eventLanguages ++ [l] ∧
         l.eventGuid = e.guid ∧ l.languageGuid = c.defaultLanguage) ∧
    (∀ (c : NBAAdapter) (clock : Clock) (game : NBAGame) (league : NBALeague)
       (st : DBState) (eco : Ecosystem),
       getEcosystemByCode st "NBA" = some eco →
       getEventByExternalID st game.id = none →
       (processGame c clock game league st).2.eventLanguages = st.eventLanguages) := by
  constructor
  · intro c clock t st hex
    obtain ⟨e, hfind, -, -, -, -, -, -, l, hlangs, hlg, hll, -⟩ :=
      processPrice_create_found c clock t st hex
    exact ⟨e, l, hfind, hlangs, hlg, hll⟩
  · intro c clock game league st eco heco hex
    obtain ⟨e, -, -, -, -, -, -, hlangs⟩ :=
      processGame_create_found c clock game league st eco heco hex
    exact hlangs

/-- C5 witness: Binance creates the language row; the NBA adapter does
not. -/
theorem create_path_language_rows_witness :
    (∃ e l, getEventByExternalID
        (processPrice sampleBinance sampleClock
          { symbol := "BTCUSDT", price := "65000.50" } DBState.empty).2
        (sampleBinance.extPre ++ "BTCUSDT") = some e ∧
      (processPrice sampleBinance sampleClock
          { symbol := "BTCUSDT", price := "65000.50" } DBState.empty).2.eventLanguages
        = DBState.empty.eventLanguages ++ [l] ∧
      l.eventGuid = e.guid ∧ l.languageGuid = sampleBinance.defaultLanguage) ∧
    (processGame sampleNBA sampleClock closedGame sampleLeague nbaStore).2.eventLanguages
      = nbaStore.eventLanguages := by
  have h := create_path_language_rows
  exact ⟨h.1 sampleBinance sampleClock { symbol := "BTCUSDT", price := "65000.50" }
      DBState.empty (by decide),
    h.2 sampleNBA sampleClock closedGame sampleLeague nbaStore
      { guid := "eco-nba", code := "NBA" } (by decide) (by decide)⟩

/-- C6 counterexample: the Binance scenario stores the tick's price in
the `price` column, not in `mainScore` — the created row has
`mainScore = "0"`, not the claimed "65000.50". -/
theorem new_crypto_event_mainScore_cex :
    (getEventByExternalID
        (processPrice sampleBinance sampleClock
          { symbol := "BTCUSDT", price := "65000.50" } DBState.empty).2
        "BINANCE_BTCUSDT").map (fun e => e.mainScore) = some "0" ∧
    ("0" : String) ≠ "65000.50" := by
  refine ⟨?_, by decide⟩
  decide

/-- C6 (amended): given no existing event with externalId
`BINANCE_BTCUSDT`, processing `PriceTick{"BTCUSDT","65000.50"}` through
the Binance upsert creates exactly one event row — with
`price = "65000.50"`, `mainScore = "0"`, `isLive = 0`, `stage = "LIVE"`
— and exactly one `EventLanguage` row titled "BTCUSDT Price". -/
theorem new_crypto_event_scenario (category ecosystem lang : String)
    (clock : Clock) (st : DBState)
    (hcount : countByExternalID st "BINANCE_BTCUSDT" = 0) :
    countByExternalID
      (processPrice (binanceCrawler category ecosystem lang) clock
        { symbol := "BTCUSDT", price := "65000.50" } st).2 "BINANCE_BTCUSDT" = 1 ∧
    ∃ e l, getEventByExternalID
        (processPrice (binanceCrawler category ecosystem lang) clock
          { symbol := "BTCUSDT", price := "65000.50" } st).2 "BINANCE_BTCUSDT"
        = some e ∧
      e.price = "65000.50" ∧ e.mainScore = "0" ∧ e.isLive = 0 ∧ e.stage = "LIVE" ∧
      (processPrice (binanceCrawler category ecosystem lang) clock
          { symbol := "BTCUSDT", price := "65000.50" } st).2.eventLanguages
        = st.eventLanguages ++ [l] ∧
      l.eventGuid = e.guid ∧ l.title = "BTCUSDT Price" := by
  have happ : (binanceCrawler category ecosystem lang).extPre
      ++ ({ symbol := "BTCUSDT", price := "65000.50" } : PriceTick).symbol
      = "BINANCE_BTCUSDT" := rfl
  have hex : getEventByExternalID st "BINANCE_BTCUSDT" = none := by
    cases hf : st.events.find? (fun e => e.externalId == "BINANCE_BTCUSDT") with
    | none => exact hf
    | some ev =>
      exfalso
      have h1 := countP_pos_of_find?_eq_some hf
      have h2 : st.events.countP (fun e => e.externalId == "BINANCE_BTCUSDT") = 0 :=
        hcount
      omega
  have hexA : getEventByExternalID st ((binanceCrawler category ecosystem lang).extPre
      ++ ({ symbol := "BTCUSDT", price := "65000.50" } : PriceTick).symbol) = none := by
    rw [happ]
    exact hex
  have hwfA : countByExternalID st ((binanceCrawler category ecosystem lang).extPre
      ++ ({ symbol := "BTCUSDT", price := "65000.50" } : PriceTick).symbol) ≤ 1 := by
    rw [happ]
    have h2 : countByExternalID st "BINANCE_BTCUSDT" = 0 := hcount
    omega
  have hstep := processPrice_step (binanceCrawler category ecosystem lang) clock
    { symbol := "BTCUSDT", price := "65000.50" } st hwfA
  rw [happ] at hstep
  obtain ⟨e, hfind, hms, -, -, hlive, hstage, hprice, l, hlangs, hlg, -, htitle⟩ :=
    processPrice_create_found (binanceCrawler category ecosystem lang) clock
      { symbol := "BTCUSDT", price := "65000.50" } st hexA
  rw [happ] at hfind
  have htitle' : l.title = "BTCUSDT Price" := by
    rw [htitle]
    decide
  exact ⟨hstep.1, e, l, hfind, hprice, hms, hlive, hstage, hlangs, hlg, htitle'⟩

/-- C6 witness: the scenario run from the empty store. -/
theorem new_crypto_event_scenario_witness :
    countByExternalID
      (processPrice (binanceCrawler "cat-crypto" "eco-binance" "lang-en") sampleClock
        { symbol := "BTCUSDT", price := "65000.50" } DBState.empty).2
      "BINANCE_BTCUSDT" = 1 ∧
    ∃ e l, getEventByExternalID
        (processPrice (binanceCrawler "cat-crypto" "eco-binance" "lang-en") sampleClock
          { symbol := "BTCUSDT", price := "65000.50" } DBState.empty).2
        "BINANCE_BTCUSDT" = some e ∧
      e.price = "65000.50" ∧ e.mainScore = "0" ∧ e.isLive = 0 ∧ e.stage = "LIVE" ∧
      (processPrice (binanceCrawler "cat-crypto" "eco-binance" "lang-en") sampleClock
          { symbol := "BTCUSDT", price := "65000.50" } DBState.empty).2.eventLanguages
        = DBState.empty.eventLanguages ++ [l] ∧
      l.eventGuid = e.guid ∧ l.title = "BTCUSDT Price" :=
  new_crypto_event_scenario "cat-crypto" "eco-binance" "lang-en" sampleClock
    DBState.empty (by decide)

end EventPool
